import Mathlib

/-!
Shallow embedding of the Tyk gateway control-plane API (`gateway/api.go`)
and proofs about its key-lifecycle, quota-reporting and OAuth-client logic.

Go maps are embedded as association lists (`List (String × α)`); Go machine
integers (`int64`) are embedded as `Int` (no arithmetic in the embedded code
overflows in the claims' scenarios); fallible Go code returns `Except`.
Time is embedded at second granularity as an `Int` carried in the environment
(`GwEnv.now`); `time.Now().After(time.Unix(e, 0))` becomes `now > e`.
External collaborators (session store, certificate store, bcrypt, token
generation) are injected as function-valued fields of `GwEnv`, mirroring the
gateway singletons they stand for.
-/

namespace Gateway

/-- Go map lookup on an association list: first entry with the given key. -/
def lookupL {α : Type} (m : List (String × α)) (k : String) : Option α :=
  (m.find? (fun p => p.1 == k)).map Prod.snd

/-- Go map assignment `m[k] = v` on an association list: replace the entry
if the key is present, else append it. -/
def insertL {α : Type} (m : List (String × α)) (k : String) (v : α) : List (String × α) :=
  if m.any (fun p => p.1 == k) then m.map (fun p => if p.1 == k then (k, v) else p)
  else m ++ [(k, v)]

/-- `user.APILimit` (package `user`, declaration outside src/): the per-API
rate/quota override carried by an access right. Field set follows the
session-state data model in the spec (§3: quota max, quota renewal period,
rate, rate period, allowance-scope label is on `AccessDefinition`). -/
structure APILimit where
  rate : Int
  per : Int
  throttleInterval : Int
  throttleRetryLimit : Int
  maxQueryDepth : Int
  quotaMax : Int
  quotaRenews : Int
  quotaRemaining : Int
  quotaRenewalRate : Int
  setBy : String
  deriving DecidableEq, Repr

/-- The zero value `user.APILimit{}`. -/
def APILimit.empty : APILimit :=
  { rate := 0, per := 0, throttleInterval := 0, throttleRetryLimit := 0, maxQueryDepth := 0
    quotaMax := 0, quotaRenews := 0, quotaRemaining := 0, quotaRenewalRate := 0, setBy := "" }

/-- Modelled from the spec: `user.APILimit.IsEmpty` lives in the `user`
package, outside src/. Spec §3: "A zero-valued `Limit` means inherit the
session's global limit" and §4.4 "all fields zero ⇒ no override", so a limit
is empty exactly when it equals the zero value. -/
def APILimit.IsEmpty (a : APILimit) : Bool :=
  a == APILimit.empty

/-- `user.AccessDefinition`: per-API access right (limit plus allowance scope). -/
structure AccessDefinition where
  limit : APILimit
  allowanceScope : String
  deriving DecidableEq, Repr

/-- `user.SessionState`, restricted to the fields read or written by the
code under verification (`gateway/api.go`). `policyIDs` stands for the list
returned by `SessionState.PolicyIDs()`. `dateCreated` is epoch seconds. -/
structure SessionState where
  keyID : String
  orgID : String
  accessRights : List (String × AccessDefinition)
  quotaMax : Int
  quotaRenews : Int
  quotaRemaining : Int
  quotaRenewalRate : Int
  expires : Int
  dateCreated : Int
  lastUpdated : String
  certificate : String
  basicAuthPassword : String
  basicAuthHash : String
  policyIDs : List String
  deriving DecidableEq, Repr

/-- The zero value `user.SessionState{}` (used for `originalKey` on POST). -/
def emptySession : SessionState :=
  { keyID := "", orgID := "", accessRights := [], quotaMax := 0, quotaRenews := 0
    quotaRemaining := 0, quotaRenewalRate := 0, expires := 0, dateCreated := 0
    lastUpdated := "", certificate := "", basicAuthPassword := "", basicAuthHash := ""
    policyIDs := [] }

/-- `APISpec` fields consulted by `gateway/api.go` (`APIDefinition` flags). -/
structure APISpec where
  apiID : String
  orgID : String
  useOauth2 : Bool
  enableJWT : Bool
  dontSetQuotasOnCreate : Bool
  deriving DecidableEq, Repr

/-- `user.Policy` fields consulted by `gateway/api.go`. -/
structure Policy where
  accessRights : List (String × AccessDefinition)
  keyExpiresIn : Int
  deriving DecidableEq, Repr

/-- The gateway environment: registry lookups, configuration flags and the
external collaborators of `gateway/api.go`, injected as functions.
`sessionDetail org key isHashed` is `GlobalSessionManager.SessionDetail`;
`bcryptHash` is the success path of `bcrypt.GenerateFromPassword` at cost 10
(which cannot fail); `tokenOrg` is `storage.TokenOrg`; `hashKeyFn` is
`storage.HashKey(·, config.HashKeys)`; `customKeyExists` reports whether
`GlobalSessionManager.Store().GetKey` succeeds; `now` is the current time
in epoch seconds. -/
structure GwEnv where
  getApiSpec : String → Option APISpec
  allSpecs : List APISpec
  policiesByID : String → Option Policy
  allowMasterKeys : Bool
  hashKeys : Bool
  certExists : String → Bool
  bcryptHash : String → String
  tokenOrg : String → String
  generateToken : String → String → String
  customKeyExists : String → Bool
  sessionDetail : String → String → Bool → Option SessionState
  hashKeyFn : String → String
  now : Int

/-- One iteration of the policy loop in `gateway.checkAndApplyTrialPeriod`
(lines 184-200). -/
def trialStep (env : GwEnv) (keyName : String) (isHashed : Bool) (acc : SessionState)
    (polID : String) : SessionState :=
  match env.policiesByID polID with
  | none => acc
  | some policy =>
    if policy.keyExpiresIn > 0 then
      if (env.sessionDetail acc.orgID keyName isHashed).isNone then
        { acc with expires := env.now + policy.keyExpiresIn }
      else acc
    else acc

/-- `gateway.checkAndApplyTrialPeriod`: for each referenced policy that
forces an expiry (`KeyExpiresIn > 0`), if no session exists yet under the
key name, set `Expires = now + KeyExpiresIn`. -/
def checkAndApplyTrialPeriod (env : GwEnv) (keyName : String) (s : SessionState)
    (isHashed : Bool) : SessionState :=
  s.policyIDs.foldl (trialStep env keyName isHashed) s

/-- One policy of the `ApplyPolicies` merge (see `ApplyPolicies`). -/
def applyPolStep (env : GwEnv) (acc : SessionState) (polID : String) : SessionState :=
  match env.policiesByID polID with
  | none => acc
  | some policy =>
    { acc with accessRights :=
        policy.accessRights.foldl (fun m kv => insertL m kv.1 kv.2) acc.accessRights }

/-- Modelled from the spec: `BaseMiddleware.ApplyPolicies` lives in
`gateway/policy.go`, outside src/. Spec §4.4: for each policy ID referenced
by the session, in list order, every API ID in that policy's access rights
takes the policy's `AccessDefinition` (last-applied policy wins); rights not
present in any policy are left untouched. -/
def ApplyPolicies (env : GwEnv) (s : SessionState) : SessionState :=
  s.policyIDs.foldl (applyPolStep env) s

/-- `gateway.resetAPILimits`: reset an access right's API-level limit to the
zero value when it is non-empty yet equal to the zero value. -/
def resetAPILimits (accessRights : List (String × AccessDefinition)) :
    List (String × AccessDefinition) :=
  accessRights.map (fun p =>
    if !p.2.limit.IsEmpty && p.2.limit == APILimit.empty then
      (p.1, { p.2 with limit := APILimit.empty })
    else p)

/-- One iteration of the access-rights loop in `gateway.doAddOrUpdate`
(lines 244-274): resolve the API, apply a trial period, and unless quota
setting is suppressed for the API, reset the renewal window (when
`dontReset` is unset) and apply policies and save. The `List String`
component records the APIs the session was saved under; `ResetQuota`'s
effect on the external usage counter is outside this state. -/
def addKeyStep (env : GwEnv) (keyName : String) (dontReset isHashed : Bool)
    (st : SessionState × List String) (apiId : String) :
    Except String (SessionState × List String) :=
  match env.getApiSpec apiId with
  | none => Except.error "API must be active to add keys"
  | some apiSpec =>
    let s := checkAndApplyTrialPeriod env keyName st.1 isHashed
    if !apiSpec.dontSetQuotasOnCreate then
      let s := if !dontReset then { s with quotaRenews := env.now + s.quotaRenewalRate } else s
      let s := ApplyPolicies env s
      Except.ok (s, st.2 ++ [apiId])
    else Except.ok (s, st.2)

/-- One iteration of the add-to-all loop in `gateway.doAddOrUpdate`
(lines 284-295): reset the renewal window (when `dontReset` is unset),
apply a trial period, apply policies and save. -/
def masterKeyStep (env : GwEnv) (keyName : String) (dontReset isHashed : Bool)
    (st : SessionState × List String) (spec : APISpec) : SessionState × List String :=
  let s := if !dontReset then { st.1 with quotaRenews := env.now + st.1.quotaRenewalRate } else st.1
  let s := checkAndApplyTrialPeriod env keyName s isHashed
  let s := ApplyPolicies env s
  (s, st.2 ++ [spec.apiID])

/-- `gateway.doAddOrUpdate`: stamp `LastUpdated` unless `dontReset`, then
either process the declared access rights (normalising zero-valued limits
first, failing if a referenced API is unknown) or, with none declared, add
the key to every registered API when master keys are allowed and fail
otherwise. Returns the final session and the APIs it was saved under. -/
def doAddOrUpdate (env : GwEnv) (keyName : String) (newSession : SessionState)
    (dontReset isHashed : Bool) : Except String (SessionState × List String) :=
  let s0 := if !dontReset then { newSession with lastUpdated := toString env.now } else newSession
  if s0.accessRights.length > 0 then
    let s1 := { s0 with accessRights := resetAPILimits s0.accessRights }
    (s1.accessRights.map Prod.fst).foldlM (addKeyStep env keyName dontReset isHashed) (s1, [])
  else
    if !env.allowMasterKeys then Except.error "Master keys not allowed"
    else Except.ok (env.allSpecs.foldl (masterKeyStep env keyName dontReset isHashed) (s0, []))

/-- `gateway.setSessionPassword` (success path: bcrypt at cost 10 cannot
fail): mark the hash kind bcrypt and replace the password by its hash. -/
def setSessionPassword (env : GwEnv) (s : SessionState) : SessionState :=
  { s with basicAuthHash := "bcrypt", basicAuthPassword := env.bcryptHash s.basicAuthPassword }

/-- HTTP method of a key create/update request. -/
inductive Method
  | post
  | put
  deriving DecidableEq, Repr

/-- The `suppress_reset=1` block of `gateway.handleAddOrUpdate`
(lines 384-397): carry forward the session-level `QuotaRenews` and
`LastUpdated`, then for every access right of the original session with a
non-empty limit, carry its `QuotaRenews` into the matching access right of
the new session when that one is present with a non-empty limit. -/
def carryStep (acc : SessionState) (p : String × AccessDefinition) : SessionState :=
  if p.2.limit.IsEmpty then acc
  else
    match lookupL acc.accessRights p.1 with
    | some newAccess =>
      if !newAccess.limit.IsEmpty then
        let upd := { newAccess with limit := { newAccess.limit with quotaRenews := p.2.limit.quotaRenews } }
        { acc with accessRights := insertL acc.accessRights p.1 upd }
      else acc
    | none => acc

/-- See `carryStep`. -/
def suppressResetCarry (originalKey newSession : SessionState) : SessionState :=
  originalKey.accessRights.foldl carryStep
    { newSession with quotaRenews := originalKey.quotaRenews, lastUpdated := originalKey.lastUpdated }

/-- Expiry correction of `gateway.handleAddOrUpdate` (lines 404-407): a past
`Expires` greater than 1 is replaced by the original session's `Expires`. -/
def expiryCorrect (env : GwEnv) (originalKey s : SessionState) : SessionState :=
  if env.now > s.expires && s.expires > 1 then { s with expires := originalKey.expires } else s

/-- Password handling of `gateway.handleAddOrUpdate` (lines 410-430):
hash a non-empty password on POST always, on PUT only when it differs from
the stored one; an empty incoming password inherits the stored basic-auth
data when the original session has some. -/
def passwordStep (env : GwEnv) (method : Method) (originalKey s : SessionState) : SessionState :=
  if s.basicAuthPassword != "" then
    match method with
    | Method.post => setSessionPassword env s
    | Method.put =>
      if originalKey.basicAuthPassword != s.basicAuthPassword then setSessionPassword env s
      else s
  else if originalKey.basicAuthPassword != "" then
    { s with basicAuthHash := originalKey.basicAuthHash
             basicAuthPassword := originalKey.basicAuthPassword }
  else s

/-- Key-name resolution of `gateway.handleAddOrUpdate` (lines 432-446):
POST and new-format keys keep the name; legacy PUT names retry the
new-format token as a custom key. -/
def dispatchKeyName (env : GwEnv) (method : Method) (keyName orgID : String) : String :=
  if method == Method.post || env.tokenOrg keyName != "" then keyName
  else
    let newFormatKey := env.generateToken orgID keyName
    if env.customKeyExists newFormatKey then newFormatKey else keyName

/-- Successful outcome of `gateway.handleAddOrUpdate`: the response fields
together with the session as finally saved and the APIs it was saved under. -/
structure AddOrUpdateOk where
  key : String
  keyHash : String
  action : String
  session : SessionState
  savedUnder : List String
  deriving DecidableEq, Repr

/-- Tail of `gateway.handleAddOrUpdate` (lines 404-480): expiry correction,
password handling, key-name resolution, `doAddOrUpdate` dispatch and the
response envelope. -/
def finishAddOrUpdate (env : GwEnv) (method : Method) (suppressReset isHashed : Bool)
    (originalKey : SessionState) (keyName : String) (s : SessionState) :
    Except (String × Nat) AddOrUpdateOk :=
  let s := expiryCorrect env originalKey s
  let s := passwordStep env method originalKey s
  let keyName := dispatchKeyName env method keyName s.orgID
  match doAddOrUpdate env keyName s suppressReset isHashed with
  | Except.error _ =>
    Except.error ("Failed to create key, ensure security settings are correct.", 500)
  | Except.ok (final, saved) =>
    Except.ok
      { key := keyName
        keyHash :=
          if env.hashKeys && method == Method.post then
            (if isHashed then keyName else env.hashKeyFn keyName)
          else ""
        action := if method == Method.post then "added" else "modified"
        session := final
        savedUnder := saved }

/-- `gateway.handleAddOrUpdate`: apply policies to the decoded session, on
PUT locate the original session (404 when absent), validate certificate
changes, preserve `DateCreated`, honour `suppress_reset`, then run the
shared tail (`finishAddOrUpdate`). -/
def handleAddOrUpdate (env : GwEnv) (keyName0 : String) (method : Method)
    (suppressReset isHashed : Bool) (incoming : SessionState) :
    Except (String × Nat) AddOrUpdateOk :=
  let newSession := ApplyPolicies env incoming
  match method with
  | Method.put =>
    match env.sessionDetail newSession.orgID keyName0 isHashed with
    | none => Except.error ("Key is not found", 404)
    | some originalKey =>
      let keyName := originalKey.keyID
      if newSession.certificate != originalKey.certificate && newSession.certificate == "" then
        Except.error ("Key cannot be used without a certificate", 400)
      else if newSession.certificate != originalKey.certificate &&
          !env.certExists newSession.certificate then
        Except.error ("Key must be used with an existent certificate", 400)
      else
        let ns := { newSession with dateCreated := originalKey.dateCreated }
        let ns := if suppressReset then suppressResetCarry originalKey ns else ns
        finishAddOrUpdate env method suppressReset isHashed originalKey keyName ns
  | Method.post =>
    let ns := { newSession with dateCreated := env.now }
    finishAddOrUpdate env method suppressReset isHashed emptySession
      (env.generateToken newSession.orgID keyName0) ns

/-- Body of the per-access-right loop of `gateway.handleGetDetail`
(lines 529-565): populate the remaining quota of one access right from its
usage counter; skip empty, unlimited (`-1`) and zero limits; an absent
counter reports the full limit. The entry is written back under its own API
ID by the caller. -/
def detailLimitQuota (env : GwEnv) (quotaStore : String → Option Int) (sessionKey : String)
    (byHash : Bool) (access : AccessDefinition) : AccessDefinition :=
  if access.limit.IsEmpty || access.limit.quotaMax == -1 || access.limit.quotaMax == 0 then access
  else
    let quotaScope := if access.allowanceScope != "" then access.allowanceScope ++ "-" else ""
    let limQuotaKey :=
      "quota-" ++ quotaScope ++ (if byHash then sessionKey else env.hashKeyFn sessionKey)
    match quotaStore limQuotaKey with
    | some usedQuota =>
      let remaining := access.limit.quotaMax - usedQuota
      let newRemaining := if remaining < 0 then 0 else remaining
      { access with limit := { access.limit with quotaRemaining := newRemaining } }
    | none =>
      { access with limit := { access.limit with quotaRemaining := access.limit.quotaMax } }

/-- Session-level quota population of `gateway.handleGetDetail`
(lines 503-526): unless the global quota is unlimited (`-1`), read the usage
counter and report `max(0, quotaMax - used)`; an absent counter leaves the
stored `QuotaRemaining` untouched (only a log line is emitted). -/
def detailSessionQuota (env : GwEnv) (quotaStore : String → Option Int) (sessionKey : String)
    (byHash : Bool) (session : SessionState) : SessionState :=
  if session.quotaMax != -1 then
    let quotaKey := "quota-" ++ (if byHash then sessionKey else env.hashKeyFn sessionKey)
    match quotaStore quotaKey with
    | some usedQuota =>
      let remaining := session.quotaMax - usedQuota
      if remaining < 0 then { session with quotaRemaining := 0 }
      else { session with quotaRemaining := remaining }
    | none => session
  else session

/-- The basic-auth key-ID fixup of `gateway.handleGetDetail`
(lines 567-572). -/
def detailKeyID (env : GwEnv) (sessionKey : String) (session : SessionState) : SessionState :=
  if session.basicAuthPassword != "" && env.tokenOrg sessionKey != "" then
    { session with keyID := sessionKey }
  else session

/-- `gateway.handleGetDetail`: reject hash lookups when hashing is disabled,
resolve the org through the API spec, fetch the session, apply policies, and
populate the derived remaining quotas at session level and per access right
from the usage counters in `quotaStore` (the backing store, counters already
parsed to integers; `strconv.Atoi` of a missing counter never runs because a
missing key surfaces as a store error, modelled as `none`). -/
def handleGetDetail (env : GwEnv) (quotaStore : String → Option Int)
    (sessionKey0 apiID orgID0 : String) (byHash : Bool) :
    Except (String × Nat) SessionState :=
  if byHash && !env.hashKeys then
    Except.error ("Key requested by hash but key hashing is not enabled", 400)
  else
    let orgID := match env.getApiSpec apiID with
      | some spec => spec.orgID
      | none => orgID0
    match env.sessionDetail orgID sessionKey0 byHash with
    | none => Except.error ("Key not found", 404)
    | some found =>
      let sessionKey := found.keyID
      let session := ApplyPolicies env found
      let session := detailSessionQuota env quotaStore sessionKey byHash session
      let session := { session with accessRights := session.accessRights.map (fun p =>
        (p.1, detailLimitQuota env quotaStore sessionKey byHash p.2)) }
      let session := detailKeyID env sessionKey session
      Except.ok session

/-- `gateway.OAuthClient`: the stored OAuth client record. `MetaData` is a
free-form JSON value in Go; no claim inspects its structure, so it is
embedded as a string. -/
structure OAuthClient where
  clientID : String
  clientSecret : String
  clientRedirectURI : String
  policyID : String
  metaData : String
  description : String
  deriving DecidableEq, Repr

/-- `gateway.NewClientRequest`: the outward-facing client payload. -/
structure NewClientRequest where
  clientID : String
  clientRedirectURI : String
  apiID : String
  policyID : String
  clientSecret : String
  metaData : String
  description : String
  deriving DecidableEq, Repr

/-- `prefixClient` is declared in `gateway/oauth_manager.go`, outside src/:
the per-API client namespace prefix of the spec's data model (§3). -/
def prefixClient : String := "oauth-clientid."

/-- `gateway.oauthClientStorageID`. -/
def oauthClientStorageID (clientID : String) : String :=
  prefixClient ++ clientID

/-- A token store: the access-token records of one API's OAuth manager, as
`(clientID, token)` pairs — the spec's data model (§3): tokens are opaque
records keyed by token value, associated to one ClientID. -/
abbrev TokenStore : Type := List (String × String)

/-- Modelled from the spec: `RedisOsinStorageInterface.GetClientTokens`
(`gateway/oauth_manager.go`, outside src/) — every access token associated
to the given client. -/
def GetClientTokens (store : TokenStore) (clientID : String) : List String :=
  (List.filter (fun p => p.1 == clientID) store).map Prod.snd

/-- Modelled from the spec: `RedisOsinStorageInterface.RemoveAccess`
(`gateway/oauth_manager.go`, outside src/) — delete the access-token record
with the given token value. -/
def RemoveAccess (store : TokenStore) (token : String) : TokenStore :=
  List.filter (fun p => p.2 != token) store

/-- `gateway.invalidateTokens`: when the previous client had a non-empty
`PolicyID` and the updated client's differs, enumerate the client's tokens
and revoke each one. -/
def invalidateTokens (store : TokenStore) (prevClient updatedClient : OAuthClient) : TokenStore :=
  if prevClient.policyID != "" && prevClient.policyID != updatedClient.policyID then
    (GetClientTokens store updatedClient.clientID).foldl RemoveAccess store
  else store

/-- `gateway.rotateOauthClient`: look up the API and the stored client,
regenerate only the secret (`newSecret` stands for the fresh
`createOauthClientSecret()` value), store the updated client (storage
assumed healthy) and run `invalidateTokens`. Returns the updated client and
the resulting token store. -/
def rotateOauthClient (env : GwEnv) (clientStore : String → Option OAuthClient)
    (store : TokenStore) (keyName apiID newSecret : String) :
    Except (String × Nat) (OAuthClient × TokenStore) :=
  match env.getApiSpec apiID with
  | none => Except.error ("API doesn't exist", 404)
  | some apiSpec =>
    match clientStore (oauthClientStorageID keyName) with
    | none => Except.error ("OAuth Client ID not found", 404)
    | some client =>
      let updatedClient : OAuthClient :=
        { clientID := client.clientID
          clientSecret := newSecret
          clientRedirectURI := client.clientRedirectURI
          policyID := client.policyID
          metaData := client.metaData
          description := client.description }
      let _ := apiSpec
      let store := invalidateTokens store client updatedClient
      Except.ok (updatedClient, store)

/-- The policy validation of `gateway.updateOauthClient` (lines 1898-1909):
a non-empty new policy must exist and its access rights must contain the
owning API. -/
def updatePolicyCheck (env : GwEnv) (apiID : String) (upd : NewClientRequest) :
    Option (String × Nat) :=
  if upd.policyID != "" then
    match env.policiesByID upd.policyID with
    | none => some ("Policy doesn't exist", 404)
    | some policy =>
      if (lookupL policy.accessRights apiID).isNone then
        some ("Policy access rights doesn't contain API this OAuth client belongs to", 400)
      else none
  else none

/-- `gateway.updateOauthClient`: look up the API, validate a non-empty new
policy (it must exist and cover the owning API), look up the stored client,
replace redirect URI, policy, metadata and description while keeping the
secret, store it (storage assumed healthy) and run `invalidateTokens`. -/
def updateOauthClient (env : GwEnv) (clientStore : String → Option OAuthClient)
    (store : TokenStore) (keyName apiID : String) (upd : NewClientRequest) :
    Except (String × Nat) (OAuthClient × TokenStore) :=
  match env.getApiSpec apiID with
  | none => Except.error ("API doesn't exist", 404)
  | some _ =>
    match updatePolicyCheck env apiID upd with
    | some e => Except.error e
    | none =>
      match clientStore (oauthClientStorageID keyName) with
      | none => Except.error ("OAuth Client ID not found", 404)
      | some client =>
        let updatedClient : OAuthClient :=
          { clientID := client.clientID
            clientSecret := client.clientSecret
            clientRedirectURI := upd.clientRedirectURI
            policyID := upd.policyID
            metaData := upd.metaData
            description := upd.description }
        let store := invalidateTokens store client updatedClient
        Except.ok (updatedClient, store)

/-- One iteration of the policy fan-out loop of `gateway.createOauthClient`
(lines 1751-1796): abort when an API of the policy is unknown; store the
client for the API when it has OAuth2 or JWT enabled, raising the `oauth2`
flag. The error carries the APIs already written to when the loop aborts. -/
def createClientStep (env : GwEnv) (acc : Except ((String × Nat) × List String) (Bool × List String))
    (apiID : String) : Except ((String × Nat) × List String) (Bool × List String) :=
  match acc with
  | Except.error e => Except.error e
  | Except.ok (oauth2, stored) =>
    match env.getApiSpec apiID with
    | none => Except.error (("API doesn't exist", 400), stored)
    | some apiSpec =>
      if apiSpec.useOauth2 || apiSpec.enableJWT then Except.ok (true, stored ++ [apiID])
      else Except.ok (oauth2, stored)

/-- `gateway.createOauthClient`: build the client (generated ID/secret stand
in for the UUID-based generators when the request leaves them empty); with
an explicit `api_id` require that one API to exist and be OAuth2-enabled;
without one, fan out to every API of the referenced policy that has OAuth2
or JWT enabled, failing with "API is not OAuth2" when none qualifies.
Returns the client and the APIs it was stored under; errors carry the APIs
already written to (fan-out is not transactional). -/
def createOauthClient (env : GwEnv) (req : NewClientRequest) (genID genSecret : String) :
    Except ((String × Nat) × List String) (OAuthClient × List String) :=
  let cleanSting := if req.clientID == "" then genID else req.clientID
  let secret := if req.clientSecret == "" then genSecret else req.clientSecret
  let newClient : OAuthClient :=
    { clientID := cleanSting
      clientSecret := secret
      clientRedirectURI := req.clientRedirectURI
      policyID := req.policyID
      metaData := req.metaData
      description := req.description }
  if req.apiID != "" then
    match env.getApiSpec req.apiID with
    | none => Except.error (("API doesn't exist", 400), [])
    | some apiSpec =>
      if !apiSpec.useOauth2 then Except.error (("API is not OAuth2", 400), [])
      else Except.ok (newClient, [req.apiID])
  else
    match env.policiesByID newClient.policyID with
    | none => Except.error (("Policy doesn't exist", 400), [])
    | some policy =>
      match (policy.accessRights.map Prod.fst).foldl (createClientStep env)
          (Except.ok (false, [])) with
      | Except.error e => Except.error e
      | Except.ok (oauth2, stored) =>
        if !oauth2 then Except.error (("API is not OAuth2", 400), stored)
        else Except.ok (newClient, stored)

/-- The updated access right built inside `carryStep`. -/
def carryUpd (na : AccessDefinition) (qr : Int) : AccessDefinition :=
  { na with limit := { na.limit with quotaRenews := qr } }

/-- The qualification test of the `createOauthClient` fan-out loop
(line 1764): the API exists and has OAuth2 or JWT enabled. -/
def isOauthApi (env : GwEnv) (apiID : String) : Bool :=
  match env.getApiSpec apiID with
  | some sp => sp.useOauth2 || sp.enableJWT
  | none => false

/-! ### Concrete fixtures for the witness and counterexample theorems -/

/-- An OAuth2-enabled API. -/
def apiOne : APISpec :=
  { apiID := "api1", orgID := "org1", useOauth2 := true, enableJWT := false
    dontSetQuotasOnCreate := false }

/-- An API with neither OAuth2 nor JWT enabled. -/
def apiPlain : APISpec :=
  { apiID := "api2", orgID := "org1", useOauth2 := false, enableJWT := false
    dontSetQuotasOnCreate := false }

/-- A baseline gateway environment for the concrete scenarios. -/
def envBase : GwEnv :=
  { getApiSpec := fun a =>
      if a == "api1" then some apiOne else if a == "api2" then some apiPlain else none
    allSpecs := [apiOne]
    policiesByID := fun _ => none
    allowMasterKeys := true
    hashKeys := false
    certExists := fun _ => true
    bcryptHash := fun s => "hashed:" ++ s
    tokenOrg := fun _ => "org1"
    generateToken := fun o k => o ++ "." ++ k
    customKeyExists := fun _ => false
    sessionDetail := fun _ _ _ => none
    hashKeyFn := fun s => s
    now := 1000 }

/-- An access right with the zero-valued limit. -/
def adZero : AccessDefinition :=
  { limit := APILimit.empty, allowanceScope := "" }

/-- An access right with a non-empty limit whose quota renews at 100. -/
def adRenews100 : AccessDefinition :=
  { limit := { APILimit.empty with quotaMax := 5, quotaRenews := 100 }, allowanceScope := "" }

/-- An access right with a non-empty limit whose quota renews at 0. -/
def adFresh : AccessDefinition :=
  { limit := { APILimit.empty with quotaMax := 3 }, allowanceScope := "" }

/-- A stored session under the name "key1" owning `api1`. -/
def origSess : SessionState :=
  { emptySession with keyID := "key1", orgID := "org1", quotaRenews := 7, lastUpdated := "42"
                      expires := 99, accessRights := [("api1", adRenews100)] }

/-- The environment in which "key1" resolves to `origSess`. -/
def envPut : GwEnv :=
  { envBase with sessionDetail := fun _ k _ => if k == "key1" then some origSess else none }

/-- An incoming update payload whose `api1` access right has an empty limit. -/
def inEmptyLimit : SessionState :=
  { emptySession with orgID := "org1", accessRights := [("api1", adZero)] }

/-- An incoming update payload whose `api1` access right has a non-empty limit. -/
def inFreshLimit : SessionState :=
  { emptySession with orgID := "org1", accessRights := [("api1", adFresh)] }

/-- A stored OAuth client bound to policy "p1". -/
def clientP1 : OAuthClient :=
  { clientID := "c1", clientSecret := "s1", clientRedirectURI := "http://cb", policyID := "p1"
    metaData := "", description := "" }

/-- The client store holding only `clientP1`. -/
def clientStoreOne : String → Option OAuthClient := fun k =>
  if k == oauthClientStorageID "c1" then some clientP1 else none

/-- Access tokens: two for client "c1" and one for another client. -/
def tokensC1 : TokenStore :=
  [("c1", "t1"), ("c1", "t2"), ("cX", "t3")]

/-- A policy covering only `api1`. -/
def polApi1 : Policy :=
  { accessRights := [("api1", adZero)], keyExpiresIn := 0 }

/-- A policy covering only the non-OAuth `api2`. -/
def polApi2 : Policy :=
  { accessRights := [("api2", adZero)], keyExpiresIn := 0 }

/-- The environment registering policies "p2" (→ api1) and "pPlain" (→ api2). -/
def envPol : GwEnv :=
  { envPut with policiesByID := fun p =>
      if p == "p2" then some polApi1 else if p == "pPlain" then some polApi2 else none }

/-- An update payload moving the client to policy "p2". -/
def updToP2 : NewClientRequest :=
  { clientID := "", clientRedirectURI := "http://cb", apiID := "", policyID := "p2"
    clientSecret := "", metaData := "", description := "" }

/-- A registration payload with no explicit API against policy "pPlain". -/
def reqNoApiPlain : NewClientRequest :=
  { clientID := "cNew", clientRedirectURI := "http://cb", apiID := "", policyID := "pPlain"
    clientSecret := "sNew", metaData := "", description := "" }

/-- The result of the suppress-reset update of "key1" with `inFreshLimit`. -/
def outFresh : AddOrUpdateOk :=
  (handleAddOrUpdate envPut "key1" Method.put true false inFreshLimit).toOption.getD
    { key := "", keyHash := "", action := "", session := emptySession, savedUnder := [] }

/-- An incoming update payload with `Expires = 1` (non-zero, in the past). -/
def inExpires1 : SessionState :=
  { emptySession with orgID := "org1", expires := 1 }

/-- An incoming update payload with `Expires = 5` (greater than 1, in the past). -/
def inExpires5 : SessionState :=
  { emptySession with orgID := "org1", expires := 5 }

/-- The result of updating "key1" with `inExpires5`. -/
def outExpires5 : AddOrUpdateOk :=
  (handleAddOrUpdate envPut "key1" Method.put true false inExpires5).toOption.getD
    { key := "", keyHash := "", action := "", session := emptySession, savedUnder := [] }

/-- An incoming payload carrying a basic-auth password. -/
def inPw : SessionState :=
  { emptySession with orgID := "org1", basicAuthPassword := "secret" }

/-- The result of creating a key from `inPw`. -/
def outPost9 : AddOrUpdateOk :=
  (handleAddOrUpdate envBase "k9" Method.post false false inPw).toOption.getD
    { key := "", keyHash := "", action := "", session := emptySession, savedUnder := [] }

/-- An access right with a non-empty limit (quota 5) under allowance scope "sc". -/
def adScoped : AccessDefinition :=
  { limit := { APILimit.empty with quotaMax := 5 }, allowanceScope := "sc" }

/-- A stored session with a global quota of 10 and a stale stored
`QuotaRemaining` of 3, plus an `api1` access right with quota 5. -/
def sessQuota : SessionState :=
  { emptySession with keyID := "kq", orgID := "org1", quotaMax := 10, quotaRemaining := 3
                      accessRights := [("api1", adScoped)] }

/-- The environment in which "kq" resolves to `sessQuota`. -/
def envQuota : GwEnv :=
  { envBase with sessionDetail := fun _ k _ => if k == "kq" then some sessQuota else none }

/-- A quota store holding only the session-level counter of "kq" at 4. -/
def quotaStore4 : String → Option Int := fun k =>
  if k == "quota-kq" then some 4 else none

/-- The session reported for "kq" against `quotaStore4`. -/
def outQuota : SessionState :=
  (handleGetDetail envQuota quotaStore4 "kq" "apiX" "org1" false).toOption.getD emptySession

/-! ### Association-list lemmas -/

theorem find?_update_self {α : Type} (m : List (String × α)) (k : String) (v : α)
    (h : m.any (fun p => p.1 == k) = true) :
    (m.map (fun p => if p.1 == k then (k, v) else p)).find? (fun p => p.1 == k) = some (k, v) := by
  induction m with
  | nil => simp at h
  | cons p t ih =>
    by_cases hp : (p.1 == k) = true
    · rw [List.map_cons, if_pos hp]
      exact List.find?_cons_of_pos (p := fun q : String × α => q.1 == k) _ (by simp)
    · rw [List.map_cons, if_neg hp, List.find?_cons_of_neg (p := fun q : String × α => q.1 == k) _ hp]
      apply ih
      simp only [List.any_cons, Bool.or_eq_true] at h
      rcases h with h | h
      · exact absurd h hp
      · exact h

theorem lookupL_insertL_self {α : Type} (m : List (String × α)) (k : String) (v : α) :
    lookupL (insertL m k v) k = some v := by
  unfold insertL
  split
  · rename_i h
    unfold lookupL
    rw [find?_update_self m k v h]
    rfl
  · rename_i h
    have hnone : m.find? (fun p => p.1 == k) = none := by
      rw [List.find?_eq_none]
      intro x hx hxk
      exact h (List.any_eq_true.mpr ⟨x, hx, hxk⟩)
    unfold lookupL
    rw [List.find?_append, hnone]
    simp [List.find?]

theorem find?_update_ne {α : Type} (m : List (String × α)) (k : String) (v : α)
    (k' : String) (h : k' ≠ k) :
    (m.map (fun p => if p.1 == k then (k, v) else p)).find? (fun p => p.1 == k') =
      m.find? (fun p => p.1 == k') := by
  have hkk : (k == k') = false := beq_eq_false_iff_ne.mpr (fun he => h he.symm)
  induction m with
  | nil => rfl
  | cons p t ih =>
    by_cases hp : (p.1 == k) = true
    · have hp1 : p.1 = k := by simpa [beq_iff_eq] using hp
      have hne : (p.1 == k') = false := by rw [hp1]; exact hkk
      rw [List.map_cons, if_pos hp,
        List.find?_cons_of_neg (p := fun q : String × α => q.1 == k') _ (by simp [hkk]),
        List.find?_cons_of_neg (p := fun q : String × α => q.1 == k') _ (by simp [hne]), ih]
    · by_cases hq : (p.1 == k') = true
      · rw [List.map_cons, if_neg hp,
          List.find?_cons_of_pos (p := fun q : String × α => q.1 == k') _ hq,
          List.find?_cons_of_pos (p := fun q : String × α => q.1 == k') _ hq]
      · rw [List.map_cons, if_neg hp,
          List.find?_cons_of_neg (p := fun q : String × α => q.1 == k') _ hq,
          List.find?_cons_of_neg (p := fun q : String × α => q.1 == k') _ hq, ih]

theorem lookupL_insertL_ne {α : Type} (m : List (String × α)) (k : String) (v : α)
    (k' : String) (h : k' ≠ k) : lookupL (insertL m k v) k' = lookupL m k' := by
  have hkk : (k == k') = false := beq_eq_false_iff_ne.mpr (fun he => h he.symm)
  unfold insertL
  split
  · unfold lookupL
    rw [find?_update_ne m k v k' h]
  · unfold lookupL
    rw [List.find?_append]
    have hnil : List.find? (fun p => p.1 == k') [(k, v)] = none := by
      simp [List.find?, hkk]
    rw [hnil]
    simp

theorem lookupL_cons_self {α : Type} (p : String × α) (t : List (String × α)) (k : String)
    (h : p.1 = k) : lookupL (p :: t) k = some p.2 := by
  unfold lookupL
  rw [List.find?_cons_of_pos (p := fun q : String × α => q.1 == k) _ (by simp [h])]
  rfl

theorem lookupL_cons_ne {α : Type} (p : String × α) (t : List (String × α)) (k : String)
    (h : p.1 ≠ k) : lookupL (p :: t) k = lookupL t k := by
  unfold lookupL
  rw [List.find?_cons_of_neg (p := fun q : String × α => q.1 == k) _ (by simp [h])]

/-- Key-preserving value maps commute with lookup. -/
theorem lookupL_map {α β : Type} (m : List (String × α)) (g : String × α → β) (k : String) :
    lookupL (m.map (fun p => (p.1, g p))) k = (m.find? (fun p => p.1 == k)).map g := by
  induction m with
  | nil => simp [lookupL]
  | cons p t ih =>
    by_cases hp : (p.1 == k) = true
    · unfold lookupL
      rw [List.map_cons,
        List.find?_cons_of_pos (p := fun q : String × β => q.1 == k) (a := (p.1, g p)) _
          (by simpa using hp),
        List.find?_cons_of_pos (p := fun q : String × α => q.1 == k) _ hp]
      rfl
    · unfold lookupL at ih ⊢
      rw [List.map_cons,
        List.find?_cons_of_neg (p := fun q : String × β => q.1 == k) (a := (p.1, g p)) _
          (by simpa using hp),
        List.find?_cons_of_neg (p := fun q : String × α => q.1 == k) _ hp]
      exact ih

/-! ### Identity and shape lemmas for the session transformations -/

theorem resetAPILimits_id (ar : List (String × AccessDefinition)) :
    resetAPILimits ar = ar := by
  unfold resetAPILimits
  induction ar with
  | nil => rfl
  | cons p t ih =>
    rw [List.map_cons, ih]
    congr 1
    unfold APILimit.IsEmpty
    by_cases h : (p.2.limit == APILimit.empty) = true <;> simp [h]

theorem checkAndApplyTrialPeriod_nil (env : GwEnv) (keyName : String) (s : SessionState)
    (isHashed : Bool) (h : s.policyIDs = []) :
    checkAndApplyTrialPeriod env keyName s isHashed = s := by
  unfold checkAndApplyTrialPeriod
  rw [h]
  rfl

theorem ApplyPolicies_nil (env : GwEnv) (s : SessionState) (h : s.policyIDs = []) :
    ApplyPolicies env s = s := by
  unfold ApplyPolicies
  rw [h]
  rfl

theorem trialStep_shape (env : GwEnv) (keyName : String) (isHashed : Bool) (s : SessionState)
    (polID : String) :
    ∃ e, trialStep env keyName isHashed s polID = { s with expires := e } := by
  unfold trialStep
  cases env.policiesByID polID with
  | none => exact ⟨s.expires, rfl⟩
  | some policy =>
    by_cases h1 : policy.keyExpiresIn > 0
    · by_cases h2 : (env.sessionDetail s.orgID keyName isHashed).isNone = true
      · exact ⟨env.now + policy.keyExpiresIn, by simp [h1, h2]⟩
      · exact ⟨s.expires, by simp [h1, h2]⟩
    · exact ⟨s.expires, by simp [h1]⟩

theorem trialFold_shape (env : GwEnv) (keyName : String) (isHashed : Bool) (l : List String) :
    ∀ s : SessionState, ∃ e, l.foldl (trialStep env keyName isHashed) s = { s with expires := e } := by
  induction l with
  | nil => exact fun s => ⟨s.expires, rfl⟩
  | cons pid t ih =>
    intro s
    rcases trialStep_shape env keyName isHashed s pid with ⟨e1, h1⟩
    rcases ih { s with expires := e1 } with ⟨e2, h2⟩
    rw [List.foldl_cons, h1, h2]
    exact ⟨e2, rfl⟩

theorem checkAndApplyTrialPeriod_shape (env : GwEnv) (keyName : String) (s : SessionState)
    (isHashed : Bool) :
    ∃ e, checkAndApplyTrialPeriod env keyName s isHashed = { s with expires := e } :=
  trialFold_shape env keyName isHashed s.policyIDs s

theorem applyPolStep_shape (env : GwEnv) (s : SessionState) (polID : String) :
    ∃ ar, applyPolStep env s polID = { s with accessRights := ar } := by
  unfold applyPolStep
  cases env.policiesByID polID with
  | none => exact ⟨s.accessRights, rfl⟩
  | some policy => exact ⟨_, rfl⟩

theorem applyPolFold_shape (env : GwEnv) (l : List String) :
    ∀ s : SessionState, ∃ ar, l.foldl (applyPolStep env) s = { s with accessRights := ar } := by
  induction l with
  | nil => exact fun s => ⟨s.accessRights, rfl⟩
  | cons pid t ih =>
    intro s
    rcases applyPolStep_shape env s pid with ⟨ar1, h1⟩
    rcases ih { s with accessRights := ar1 } with ⟨ar2, h2⟩
    rw [List.foldl_cons, h1, h2]
    exact ⟨ar2, rfl⟩

theorem ApplyPolicies_shape (env : GwEnv) (s : SessionState) :
    ∃ ar, ApplyPolicies env s = { s with accessRights := ar } :=
  applyPolFold_shape env s.policyIDs s

theorem carryStep_lookup_ne (s : SessionState) (p : String × AccessDefinition) (k : String)
    (h : p.1 ≠ k) : lookupL (carryStep s p).accessRights k = lookupL s.accessRights k := by
  unfold carryStep
  split
  · rfl
  · split
    · split
      · exact lookupL_insertL_ne s.accessRights p.1 _ k (Ne.symm h)
      · rfl
    · rfl

theorem carryFold_lookup_frame (k : String) :
    ∀ (l : List (String × AccessDefinition)), (∀ p ∈ l, p.1 ≠ k) →
    ∀ s : SessionState, lookupL (l.foldl carryStep s).accessRights k = lookupL s.accessRights k := by
  intro l
  induction l with
  | nil => intro _ s; rfl
  | cons p t ih =>
    intro hk s
    rw [List.foldl_cons, ih (fun q hq => hk q (List.mem_cons_of_mem p hq)),
      carryStep_lookup_ne s p k (hk p (List.mem_cons_self p t))]

theorem carryFold_lookup_hit (a : AccessDefinition) (k : String) (hne : a.limit.IsEmpty = false) :
    ∀ (l : List (String × AccessDefinition)), (l.map Prod.fst).Nodup → lookupL l k = some a →
    ∀ (s : SessionState) (na : AccessDefinition),
      lookupL s.accessRights k = some na → na.limit.IsEmpty = false →
      lookupL (l.foldl carryStep s).accessRights k =
        some { na with limit := { na.limit with quotaRenews := a.limit.quotaRenews } } := by
  intro l
  induction l with
  | nil =>
    intro _ hmem
    simp [lookupL] at hmem
  | cons p t ih =>
    intro hnd hmem s na h1 h2
    have hnd' : (t.map Prod.fst).Nodup := by
      rw [List.map_cons, List.nodup_cons] at hnd
      exact hnd.2
    rw [List.foldl_cons]
    by_cases hpk : p.1 = k
    · have ha : a = p.2 := by
        rw [lookupL_cons_self p t k hpk] at hmem
        exact (Option.some_inj.mp hmem).symm
      have hpe : p.2.limit.IsEmpty = false := ha ▸ hne
      have hstep : carryStep s p =
          { s with accessRights := insertL s.accessRights p.1 (carryUpd na p.2.limit.quotaRenews) } := by
        unfold carryStep carryUpd
        rw [hpe]
        simp only [Bool.false_eq_true, if_false]
        rw [hpk, h1]
        simp only [h2, Bool.not_false, if_true]
      have hfresh : ∀ q ∈ t, q.1 ≠ k := by
        intro q hq hqk
        rw [List.map_cons, List.nodup_cons] at hnd
        apply hnd.1
        have hmm : q.1 ∈ List.map Prod.fst t := List.mem_map_of_mem Prod.fst hq
        rw [hqk] at hmm
        rw [hpk]
        exact hmm
      rw [carryFold_lookup_frame k t hfresh _, hstep]
      have hself : lookupL (insertL s.accessRights p.1 (carryUpd na p.2.limit.quotaRenews)) k =
          some (carryUpd na p.2.limit.quotaRenews) := by
        rw [← hpk]
        exact lookupL_insertL_self s.accessRights p.1 _
      rw [hself, ha]
      rfl
    · have hmem' : lookupL t k = some a := by
        rw [← lookupL_cons_ne p t k hpk]
        exact hmem
      have h1' : lookupL (carryStep s p).accessRights k = some na := by
        rw [carryStep_lookup_ne s p k hpk]
        exact h1
      exact ih hnd' hmem' (carryStep s p) na h1' h2

theorem carryFold_shape (l : List (String × AccessDefinition)) (s : SessionState) :
    ∃ ar, l.foldl carryStep s = { s with accessRights := ar } := by
  induction l generalizing s with
  | nil => exact ⟨s.accessRights, rfl⟩
  | cons p t ih =>
    simp only [List.foldl_cons]
    have hstep : ∃ ar, carryStep s p = { s with accessRights := ar } := by
      unfold carryStep
      split
      · exact ⟨s.accessRights, rfl⟩
      · split
        · split
          · exact ⟨_, rfl⟩
          · exact ⟨s.accessRights, rfl⟩
        · exact ⟨s.accessRights, rfl⟩
    rcases hstep with ⟨ar1, h1⟩
    rcases ih { s with accessRights := ar1 } with ⟨ar2, h2⟩
    rw [h1, h2]
    exact ⟨ar2, rfl⟩

theorem expiryCorrect_shape (env : GwEnv) (originalKey s : SessionState) :
    ∃ e, expiryCorrect env originalKey s = { s with expires := e } := by
  unfold expiryCorrect
  split
  · exact ⟨originalKey.expires, rfl⟩
  · exact ⟨s.expires, rfl⟩

theorem passwordStep_shape (env : GwEnv) (method : Method) (originalKey s : SessionState) :
    ∃ pw hk, passwordStep env method originalKey s =
      { s with basicAuthPassword := pw, basicAuthHash := hk } := by
  unfold passwordStep setSessionPassword
  by_cases h1 : (s.basicAuthPassword != "") = true
  · rw [if_pos h1]
    cases method with
    | post => exact ⟨_, _, rfl⟩
    | put =>
      by_cases h2 : (originalKey.basicAuthPassword != s.basicAuthPassword) = true
      · rw [if_pos h2]
        exact ⟨_, _, rfl⟩
      · rw [if_neg h2]
        exact ⟨s.basicAuthPassword, s.basicAuthHash, rfl⟩
  · rw [if_neg h1]
    by_cases h3 : (originalKey.basicAuthPassword != "") = true
    · rw [if_pos h3]
      exact ⟨_, _, rfl⟩
    · rw [if_neg h3]
      exact ⟨s.basicAuthPassword, s.basicAuthHash, rfl⟩

/-! ### Lemmas about the `doAddOrUpdate` loops -/

theorem addKeyStep_id (env : GwEnv) (keyName : String) (isHashed : Bool)
    (st : SessionState × List String) (apiId : String) (hnp : st.1.policyIDs = []) :
    ∀ s' saved, addKeyStep env keyName true isHashed st apiId = Except.ok (s', saved) →
      s' = st.1 := by
  intro s' saved h
  unfold addKeyStep at h
  split at h
  · exact absurd h (by simp)
  · rename_i apiSpec hspec
    by_cases hq : (!apiSpec.dontSetQuotasOnCreate) = true
    · rw [if_pos hq] at h
      simp only [Bool.not_true, Bool.false_eq_true, if_false,
        checkAndApplyTrialPeriod_nil env keyName st.1 isHashed hnp] at h
      rw [ApplyPolicies_nil env st.1 hnp] at h
      cases h
      rfl
    · rw [if_neg hq] at h
      simp only [checkAndApplyTrialPeriod_nil env keyName st.1 isHashed hnp] at h
      cases h
      rfl

theorem addLoop_id (env : GwEnv) (keyName : String) (isHashed : Bool) :
    ∀ (l : List String) (st : SessionState × List String), st.1.policyIDs = [] →
    ∀ s' saved, l.foldlM (addKeyStep env keyName true isHashed) st = Except.ok (s', saved) →
      s' = st.1 := by
  intro l
  induction l with
  | nil =>
    intro st hnp s' saved h
    rw [List.foldlM_nil] at h
    cases h
    rfl
  | cons apiId t ih =>
    intro st hnp s' saved h
    rw [List.foldlM_cons] at h
    cases hstep : addKeyStep env keyName true isHashed st apiId with
    | error e =>
      rw [hstep] at h
      exact absurd h (by simp [Bind.bind, Except.bind])
    | ok st1 =>
      rw [hstep] at h
      simp only [Bind.bind, Except.bind] at h
      have h1 : st1.1 = st.1 :=
        addKeyStep_id env keyName isHashed st apiId hnp st1.1 st1.2 (by rw [hstep])
      have hnp1 : st1.1.policyIDs = [] := by rw [h1]; exact hnp
      rw [ih st1 hnp1 s' saved h, h1]

theorem addKeyStep_char (env : GwEnv) (keyName : String) (dontReset isHashed : Bool)
    (st : SessionState × List String) (apiId : String) (hnp : st.1.policyIDs = []) :
    ∀ s' saved, addKeyStep env keyName dontReset isHashed st apiId = Except.ok (s', saved) →
      s' = st.1 ∨ s' = { st.1 with quotaRenews := env.now + st.1.quotaRenewalRate } := by
  intro s' saved h
  unfold addKeyStep at h
  split at h
  · exact absurd h (by simp)
  · rename_i apiSpec hspec
    by_cases hq : (!apiSpec.dontSetQuotasOnCreate) = true
    · rw [if_pos hq] at h
      by_cases hr : (!dontReset) = true
      · rw [if_pos hr] at h
        simp only [checkAndApplyTrialPeriod_nil env keyName st.1 isHashed hnp] at h
        rw [ApplyPolicies_nil env
          { st.1 with quotaRenews := env.now + st.1.quotaRenewalRate } hnp] at h
        cases h
        exact Or.inr rfl
      · rw [if_neg hr] at h
        simp only [checkAndApplyTrialPeriod_nil env keyName st.1 isHashed hnp] at h
        rw [ApplyPolicies_nil env st.1 hnp] at h
        cases h
        exact Or.inl rfl
    · rw [if_neg hq] at h
      simp only [checkAndApplyTrialPeriod_nil env keyName st.1 isHashed hnp] at h
      cases h
      exact Or.inl rfl

theorem addLoop_char (env : GwEnv) (keyName : String) (dontReset isHashed : Bool) :
    ∀ (l : List String) (st : SessionState × List String), st.1.policyIDs = [] →
    ∀ s' saved, l.foldlM (addKeyStep env keyName dontReset isHashed) st = Except.ok (s', saved) →
      s' = st.1 ∨ s' = { st.1 with quotaRenews := env.now + st.1.quotaRenewalRate } := by
  intro l
  induction l with
  | nil =>
    intro st hnp s' saved h
    rw [List.foldlM_nil] at h
    cases h
    exact Or.inl rfl
  | cons apiId t ih =>
    intro st hnp s' saved h
    rw [List.foldlM_cons] at h
    cases hstep : addKeyStep env keyName dontReset isHashed st apiId with
    | error e =>
      rw [hstep] at h
      exact absurd h (by simp [Bind.bind, Except.bind])
    | ok st1 =>
      rw [hstep] at h
      simp only [Bind.bind, Except.bind] at h
      have h1 : st1.1 = st.1 ∨ st1.1 = { st.1 with quotaRenews := env.now + st.1.quotaRenewalRate } :=
        addKeyStep_char env keyName dontReset isHashed st apiId hnp st1.1 st1.2 (by rw [hstep])
      rcases h1 with h1 | h1
      · have hnp1 : st1.1.policyIDs = [] := by rw [h1]; exact hnp
        rcases ih st1 hnp1 s' saved h with h2 | h2
        · exact Or.inl (by rw [h2, h1])
        · exact Or.inr (by rw [h2, h1])
      · have hnp1 : st1.1.policyIDs = [] := by rw [h1]; exact hnp
        rcases ih st1 hnp1 s' saved h with h2 | h2
        · exact Or.inr (by rw [h2, h1])
        · exact Or.inr (by rw [h2, h1])

theorem masterStep_id (env : GwEnv) (keyName : String) (isHashed : Bool)
    (st : SessionState × List String) (spec : APISpec) (hnp : st.1.policyIDs = []) :
    (masterKeyStep env keyName true isHashed st spec).1 = st.1 := by
  unfold masterKeyStep
  simp only [Bool.not_true, Bool.false_eq_true, if_false,
    checkAndApplyTrialPeriod_nil env keyName st.1 isHashed hnp]
  rw [ApplyPolicies_nil env st.1 hnp]

theorem masterFold_id (env : GwEnv) (keyName : String) (isHashed : Bool) :
    ∀ (l : List APISpec) (st : SessionState × List String), st.1.policyIDs = [] →
      (l.foldl (masterKeyStep env keyName true isHashed) st).1 = st.1 := by
  intro l
  induction l with
  | nil => intro st _; rfl
  | cons spec t ih =>
    intro st hnp
    rw [List.foldl_cons]
    have h1 := masterStep_id env keyName isHashed st spec hnp
    rw [ih _ (by rw [h1]; exact hnp), h1]

theorem masterStep_char (env : GwEnv) (keyName : String) (dontReset isHashed : Bool)
    (st : SessionState × List String) (spec : APISpec) (hnp : st.1.policyIDs = []) :
    (masterKeyStep env keyName dontReset isHashed st spec).1 = st.1 ∨
      (masterKeyStep env keyName dontReset isHashed st spec).1 =
        { st.1 with quotaRenews := env.now + st.1.quotaRenewalRate } := by
  unfold masterKeyStep
  by_cases hr : (!dontReset) = true
  · simp only [if_pos hr, checkAndApplyTrialPeriod_nil env keyName
      { st.1 with quotaRenews := env.now + st.1.quotaRenewalRate } isHashed hnp]
    rw [ApplyPolicies_nil env
      { st.1 with quotaRenews := env.now + st.1.quotaRenewalRate } hnp]
    exact Or.inr rfl
  · simp only [if_neg hr, checkAndApplyTrialPeriod_nil env keyName st.1 isHashed hnp]
    rw [ApplyPolicies_nil env st.1 hnp]
    exact Or.inl rfl

theorem masterFold_char (env : GwEnv) (keyName : String) (dontReset isHashed : Bool) :
    ∀ (l : List APISpec) (st : SessionState × List String), st.1.policyIDs = [] →
      (l.foldl (masterKeyStep env keyName dontReset isHashed) st).1 = st.1 ∨
      (l.foldl (masterKeyStep env keyName dontReset isHashed) st).1 =
        { st.1 with quotaRenews := env.now + st.1.quotaRenewalRate } := by
  intro l
  induction l with
  | nil => intro st _; exact Or.inl rfl
  | cons spec t ih =>
    intro st hnp
    rw [List.foldl_cons]
    rcases masterStep_char env keyName dontReset isHashed st spec hnp with h1 | h1
    · have hnp1 : (masterKeyStep env keyName dontReset isHashed st spec).1.policyIDs = [] := by
        rw [h1]; exact hnp
      rcases ih _ hnp1 with h2 | h2
      · exact Or.inl (by rw [h2, h1])
      · exact Or.inr (by rw [h2, h1])
    · have hnp1 : (masterKeyStep env keyName dontReset isHashed st spec).1.policyIDs = [] := by
        rw [h1]; exact hnp
      rcases ih _ hnp1 with h2 | h2
      · exact Or.inr (by rw [h2, h1])
      · exact Or.inr (by rw [h2, h1])

theorem masterFold_saved (env : GwEnv) (keyName : String) (dontReset isHashed : Bool) :
    ∀ (l : List APISpec) (st : SessionState × List String),
      (l.foldl (masterKeyStep env keyName dontReset isHashed) st).2 =
        st.2 ++ l.map APISpec.apiID := by
  intro l
  induction l with
  | nil => intro st; simp
  | cons spec t ih =>
    intro st
    rw [List.foldl_cons, ih]
    have hstep : (masterKeyStep env keyName dontReset isHashed st spec).2 = st.2 ++ [spec.apiID] := by
      unfold masterKeyStep
      rfl
    rw [hstep]
    simp

theorem ApplyPolicies_basicAuth (env : GwEnv) (s : SessionState) :
    (ApplyPolicies env s).basicAuthPassword = s.basicAuthPassword ∧
    (ApplyPolicies env s).basicAuthHash = s.basicAuthHash := by
  rcases ApplyPolicies_shape env s with ⟨ar, har⟩
  rw [har]
  exact ⟨rfl, rfl⟩

theorem checkAndApplyTrialPeriod_basicAuth (env : GwEnv) (keyName : String) (s : SessionState)
    (isHashed : Bool) :
    (checkAndApplyTrialPeriod env keyName s isHashed).basicAuthPassword = s.basicAuthPassword ∧
    (checkAndApplyTrialPeriod env keyName s isHashed).basicAuthHash = s.basicAuthHash := by
  rcases checkAndApplyTrialPeriod_shape env keyName s isHashed with ⟨e, he⟩
  rw [he]
  exact ⟨rfl, rfl⟩

theorem addKeyStep_basicAuth (env : GwEnv) (keyName : String) (dontReset isHashed : Bool)
    (st : SessionState × List String) (apiId : String) :
    ∀ s' saved, addKeyStep env keyName dontReset isHashed st apiId = Except.ok (s', saved) →
      s'.basicAuthPassword = st.1.basicAuthPassword ∧ s'.basicAuthHash = st.1.basicAuthHash := by
  intro s' saved h
  unfold addKeyStep at h
  split at h
  · exact absurd h (by simp)
  · rename_i apiSpec hspec
    by_cases hq : (!apiSpec.dontSetQuotasOnCreate) = true
    · rw [if_pos hq] at h
      simp only [] at h
      cases h
      constructor
      · rw [(ApplyPolicies_basicAuth env _).1]
        by_cases hr : (!dontReset) = true
        · rw [if_pos hr]
          exact (checkAndApplyTrialPeriod_basicAuth env keyName st.1 isHashed).1
        · rw [if_neg hr]
          exact (checkAndApplyTrialPeriod_basicAuth env keyName st.1 isHashed).1
      · rw [(ApplyPolicies_basicAuth env _).2]
        by_cases hr : (!dontReset) = true
        · rw [if_pos hr]
          exact (checkAndApplyTrialPeriod_basicAuth env keyName st.1 isHashed).2
        · rw [if_neg hr]
          exact (checkAndApplyTrialPeriod_basicAuth env keyName st.1 isHashed).2
    · rw [if_neg hq] at h
      cases h
      exact checkAndApplyTrialPeriod_basicAuth env keyName st.1 isHashed

theorem addLoop_basicAuth (env : GwEnv) (keyName : String) (dontReset isHashed : Bool) :
    ∀ (l : List String) (st : SessionState × List String) (s' : SessionState) (saved : List String),
      l.foldlM (addKeyStep env keyName dontReset isHashed) st = Except.ok (s', saved) →
      s'.basicAuthPassword = st.1.basicAuthPassword ∧ s'.basicAuthHash = st.1.basicAuthHash := by
  intro l
  induction l with
  | nil =>
    intro st s' saved h
    rw [List.foldlM_nil] at h
    cases h
    exact ⟨rfl, rfl⟩
  | cons apiId t ih =>
    intro st s' saved h
    rw [List.foldlM_cons] at h
    cases hstep : addKeyStep env keyName dontReset isHashed st apiId with
    | error e =>
      rw [hstep] at h
      exact absurd h (by simp [Bind.bind, Except.bind])
    | ok st1 =>
      rw [hstep] at h
      simp only [Bind.bind, Except.bind] at h
      have h1 := addKeyStep_basicAuth env keyName dontReset isHashed st apiId st1.1 st1.2
        (by rw [hstep])
      have h2 := ih st1 s' saved h
      exact ⟨h2.1.trans h1.1, h2.2.trans h1.2⟩

theorem masterStep_basicAuth (env : GwEnv) (keyName : String) (dontReset isHashed : Bool)
    (st : SessionState × List String) (spec : APISpec) :
    (masterKeyStep env keyName dontReset isHashed st spec).1.basicAuthPassword =
      st.1.basicAuthPassword ∧
    (masterKeyStep env keyName dontReset isHashed st spec).1.basicAuthHash =
      st.1.basicAuthHash := by
  unfold masterKeyStep
  simp only []
  constructor
  · rw [(ApplyPolicies_basicAuth env _).1, (checkAndApplyTrialPeriod_basicAuth env keyName _ isHashed).1]
    by_cases hr : (!dontReset) = true
    · rw [if_pos hr]
    · rw [if_neg hr]
  · rw [(ApplyPolicies_basicAuth env _).2, (checkAndApplyTrialPeriod_basicAuth env keyName _ isHashed).2]
    by_cases hr : (!dontReset) = true
    · rw [if_pos hr]
    · rw [if_neg hr]

theorem masterFold_basicAuth (env : GwEnv) (keyName : String) (dontReset isHashed : Bool) :
    ∀ (l : List APISpec) (st : SessionState × List String),
      (l.foldl (masterKeyStep env keyName dontReset isHashed) st).1.basicAuthPassword =
        st.1.basicAuthPassword ∧
      (l.foldl (masterKeyStep env keyName dontReset isHashed) st).1.basicAuthHash =
        st.1.basicAuthHash := by
  intro l
  induction l with
  | nil => intro st; exact ⟨rfl, rfl⟩
  | cons spec t ih =>
    intro st
    rw [List.foldl_cons]
    have h1 := masterStep_basicAuth env keyName dontReset isHashed st spec
    have h2 := ih (masterKeyStep env keyName dontReset isHashed st spec)
    exact ⟨h2.1.trans h1.1, h2.2.trans h1.2⟩

/-- With `dontReset` (`suppress_reset=1`) and no referenced policies,
`doAddOrUpdate` saves the session exactly as given. -/
theorem doAddOrUpdate_id (env : GwEnv) (keyName : String) (s : SessionState) (isHashed : Bool)
    (hnp : s.policyIDs = []) :
    ∀ s' saved, doAddOrUpdate env keyName s true isHashed = Except.ok (s', saved) → s' = s := by
  intro s' saved h
  unfold doAddOrUpdate at h
  simp only [Bool.not_true, Bool.false_eq_true, if_false, resetAPILimits_id] at h
  split at h
  · have := addLoop_id env keyName isHashed _ _ hnp s' saved h
    exact this.trans rfl
  · split at h
    · exact absurd h (by simp)
    · injection h with h2
      have h1 : (env.allSpecs.foldl (masterKeyStep env keyName true isHashed) (s, [])).1 = s' :=
        congrArg Prod.fst h2
      rw [← h1]
      exact masterFold_id env keyName isHashed env.allSpecs (s, []) hnp

/-- With no referenced policies, `doAddOrUpdate` never changes the session's
`Expires`. -/
theorem doAddOrUpdate_expires (env : GwEnv) (keyName : String) (s : SessionState)
    (dontReset isHashed : Bool) (hnp : s.policyIDs = []) :
    ∀ s' saved, doAddOrUpdate env keyName s dontReset isHashed = Except.ok (s', saved) →
      s'.expires = s.expires := by
  intro s' saved h
  unfold doAddOrUpdate at h
  by_cases hr : (!dontReset) = true
  · rw [if_pos hr] at h
    simp only [resetAPILimits_id] at h
    split at h
    · rcases addLoop_char env keyName dontReset isHashed _ _ hnp s' saved h with h1 | h1 <;>
        rw [h1]
    · split at h
      · exact absurd h (by simp)
      · injection h with h2
        have h1 : (env.allSpecs.foldl (masterKeyStep env keyName dontReset isHashed)
            ({ s with lastUpdated := toString env.now }, [])).1 = s' := congrArg Prod.fst h2
        rw [← h1]
        rcases masterFold_char env keyName dontReset isHashed env.allSpecs
          ({ s with lastUpdated := toString env.now }, []) hnp with hm | hm <;> rw [hm]
  · rw [if_neg hr] at h
    simp only [resetAPILimits_id] at h
    split at h
    · rcases addLoop_char env keyName dontReset isHashed _ _ hnp s' saved h with h1 | h1 <;>
        rw [h1]
    · split at h
      · exact absurd h (by simp)
      · injection h with h2
        have h1 : (env.allSpecs.foldl (masterKeyStep env keyName dontReset isHashed) (s, [])).1 = s' :=
          congrArg Prod.fst h2
        rw [← h1]
        rcases masterFold_char env keyName dontReset isHashed env.allSpecs (s, []) hnp with hm | hm <;>
          rw [hm]

/-- `doAddOrUpdate` never touches the basic-auth data. -/
theorem doAddOrUpdate_basicAuth (env : GwEnv) (keyName : String) (s : SessionState)
    (dontReset isHashed : Bool) :
    ∀ s' saved, doAddOrUpdate env keyName s dontReset isHashed = Except.ok (s', saved) →
      s'.basicAuthPassword = s.basicAuthPassword ∧ s'.basicAuthHash = s.basicAuthHash := by
  intro s' saved h
  unfold doAddOrUpdate at h
  by_cases hr : (!dontReset) = true
  · rw [if_pos hr] at h
    simp only [resetAPILimits_id] at h
    split at h
    · exact addLoop_basicAuth env keyName dontReset isHashed _ _ s' saved h
    · split at h
      · exact absurd h (by simp)
      · injection h with h2
        have h1 : (env.allSpecs.foldl (masterKeyStep env keyName dontReset isHashed)
            ({ s with lastUpdated := toString env.now }, [])).1 = s' := congrArg Prod.fst h2
        rw [← h1]
        exact masterFold_basicAuth env keyName dontReset isHashed env.allSpecs _
  · rw [if_neg hr] at h
    simp only [resetAPILimits_id] at h
    split at h
    · exact addLoop_basicAuth env keyName dontReset isHashed _ _ s' saved h
    · split at h
      · exact absurd h (by simp)
      · injection h with h2
        have h1 : (env.allSpecs.foldl (masterKeyStep env keyName dontReset isHashed) (s, [])).1 = s' :=
          congrArg Prod.fst h2
        rw [← h1]
        exact masterFold_basicAuth env keyName dontReset isHashed env.allSpecs _

/-! ### Lemmas about `handleAddOrUpdate` -/

theorem expiryCorrect_fields (env : GwEnv) (o s : SessionState) :
    (expiryCorrect env o s).quotaRenews = s.quotaRenews ∧
    (expiryCorrect env o s).lastUpdated = s.lastUpdated ∧
    (expiryCorrect env o s).accessRights = s.accessRights ∧
    (expiryCorrect env o s).basicAuthPassword = s.basicAuthPassword ∧
    (expiryCorrect env o s).policyIDs = s.policyIDs ∧
    (expiryCorrect env o s).orgID = s.orgID := by
  rcases expiryCorrect_shape env o s with ⟨e, he⟩
  rw [he]
  exact ⟨rfl, rfl, rfl, rfl, rfl, rfl⟩

theorem passwordStep_fields (env : GwEnv) (m : Method) (o s : SessionState) :
    (passwordStep env m o s).quotaRenews = s.quotaRenews ∧
    (passwordStep env m o s).lastUpdated = s.lastUpdated ∧
    (passwordStep env m o s).accessRights = s.accessRights ∧
    (passwordStep env m o s).expires = s.expires ∧
    (passwordStep env m o s).policyIDs = s.policyIDs ∧
    (passwordStep env m o s).orgID = s.orgID := by
  rcases passwordStep_shape env m o s with ⟨pw, hk, hs⟩
  rw [hs]
  exact ⟨rfl, rfl, rfl, rfl, rfl, rfl⟩

theorem suppressResetCarry_fields (orig ns : SessionState) :
    (suppressResetCarry orig ns).quotaRenews = orig.quotaRenews ∧
    (suppressResetCarry orig ns).lastUpdated = orig.lastUpdated ∧
    (suppressResetCarry orig ns).expires = ns.expires ∧
    (suppressResetCarry orig ns).basicAuthPassword = ns.basicAuthPassword ∧
    (suppressResetCarry orig ns).basicAuthHash = ns.basicAuthHash ∧
    (suppressResetCarry orig ns).policyIDs = ns.policyIDs ∧
    (suppressResetCarry orig ns).orgID = ns.orgID := by
  unfold suppressResetCarry
  rcases carryFold_shape orig.accessRights
    { ns with quotaRenews := orig.quotaRenews, lastUpdated := orig.lastUpdated } with ⟨ar, har⟩
  rw [har]
  exact ⟨rfl, rfl, rfl, rfl, rfl, rfl, rfl⟩

/-- A successful PUT reaches the shared tail with the original session and
the suppress-reset-adjusted new session. -/
theorem put_reaches_finish (env : GwEnv) (keyName0 : String) (suppressReset isHashed : Bool)
    (incoming orig : SessionState) (out : AddOrUpdateOk)
    (hlk : env.sessionDetail (ApplyPolicies env incoming).orgID keyName0 isHashed = some orig)
    (hok : handleAddOrUpdate env keyName0 Method.put suppressReset isHashed incoming =
      Except.ok out) :
    finishAddOrUpdate env Method.put suppressReset isHashed orig orig.keyID
      (if suppressReset then
        suppressResetCarry orig { ApplyPolicies env incoming with dateCreated := orig.dateCreated }
      else { ApplyPolicies env incoming with dateCreated := orig.dateCreated }) =
      Except.ok out := by
  unfold handleAddOrUpdate at hok
  simp only [] at hok
  rw [hlk] at hok
  simp only [] at hok
  by_cases hc1 : ((ApplyPolicies env incoming).certificate != orig.certificate &&
      (ApplyPolicies env incoming).certificate == "") = true
  · rw [if_pos hc1] at hok
    exact absurd hok (by simp)
  · rw [if_neg hc1] at hok
    by_cases hc2 : ((ApplyPolicies env incoming).certificate != orig.certificate &&
        !env.certExists (ApplyPolicies env incoming).certificate) = true
    · rw [if_pos hc2] at hok
      exact absurd hok (by simp)
    · rw [if_neg hc2] at hok
      exact hok

/-- A successful POST reaches the shared tail with the zero-valued original
session and a generated key name. -/
theorem post_reaches_finish (env : GwEnv) (keyName0 : String) (suppressReset isHashed : Bool)
    (incoming : SessionState) (out : AddOrUpdateOk)
    (hok : handleAddOrUpdate env keyName0 Method.post suppressReset isHashed incoming =
      Except.ok out) :
    finishAddOrUpdate env Method.post suppressReset isHashed emptySession
      (env.generateToken (ApplyPolicies env incoming).orgID keyName0)
      { ApplyPolicies env incoming with dateCreated := env.now } = Except.ok out := by
  unfold handleAddOrUpdate at hok
  exact hok

/-- A successful `finishAddOrUpdate` returns the session produced by
`doAddOrUpdate` on the expiry-corrected, password-processed session. -/
theorem finish_ok_session (env : GwEnv) (m : Method) (sr isHashed : Bool)
    (origK : SessionState) (keyName : String) (s : SessionState) (out : AddOrUpdateOk)
    (hok : finishAddOrUpdate env m sr isHashed origK keyName s = Except.ok out) :
    ∃ saved, doAddOrUpdate env
      (dispatchKeyName env m keyName (passwordStep env m origK (expiryCorrect env origK s)).orgID)
      (passwordStep env m origK (expiryCorrect env origK s)) sr isHashed =
      Except.ok (out.session, saved) := by
  unfold finishAddOrUpdate at hok
  simp only [] at hok
  cases hd : doAddOrUpdate env
      (dispatchKeyName env m keyName (passwordStep env m origK (expiryCorrect env origK s)).orgID)
      (passwordStep env m origK (expiryCorrect env origK s)) sr isHashed with
  | error e =>
    rw [hd] at hok
    exact absurd hok (by simp)
  | ok pr =>
    obtain ⟨final, saved⟩ := pr
    rw [hd] at hok
    cases hok
    exact ⟨saved, rfl⟩

/-- With `suppress_reset=1` and no referenced policies, the saved session of
a successful tail run is exactly the password-processed, expiry-corrected
input session. -/
theorem finish_session_suppress (env : GwEnv) (isHashed : Bool) (origK : SessionState)
    (keyName : String) (s : SessionState) (hnp : s.policyIDs = []) (out : AddOrUpdateOk)
    (hok : finishAddOrUpdate env Method.put true isHashed origK keyName s = Except.ok out) :
    out.session = passwordStep env Method.put origK (expiryCorrect env origK s) := by
  rcases finish_ok_session env Method.put true isHashed origK keyName s out hok with ⟨saved, hd⟩
  have hnp2 : (passwordStep env Method.put origK (expiryCorrect env origK s)).policyIDs = [] := by
    rw [(passwordStep_fields env Method.put origK (expiryCorrect env origK s)).2.2.2.2.1,
      (expiryCorrect_fields env origK s).2.2.2.2.1]
    exact hnp
  exact doAddOrUpdate_id env _ _ isHashed hnp2 out.session saved hd

/-- With no referenced policies, the saved session's `Expires` is the
expiry-corrected one. -/
theorem finish_expires (env : GwEnv) (m : Method) (sr isHashed : Bool) (origK : SessionState)
    (keyName : String) (s : SessionState) (hnp : s.policyIDs = []) (out : AddOrUpdateOk)
    (hok : finishAddOrUpdate env m sr isHashed origK keyName s = Except.ok out) :
    out.session.expires = (expiryCorrect env origK s).expires := by
  rcases finish_ok_session env m sr isHashed origK keyName s out hok with ⟨saved, hd⟩
  have hnp2 : (passwordStep env m origK (expiryCorrect env origK s)).policyIDs = [] := by
    rw [(passwordStep_fields env m origK (expiryCorrect env origK s)).2.2.2.2.1,
      (expiryCorrect_fields env origK s).2.2.2.2.1]
    exact hnp
  have h1 := doAddOrUpdate_expires env _ _ sr isHashed hnp2 out.session saved hd
  rw [h1, (passwordStep_fields env m origK (expiryCorrect env origK s)).2.2.2.1]

/-- The saved session's basic-auth data is the one the password step
produced. -/
theorem finish_basicAuth (env : GwEnv) (m : Method) (sr isHashed : Bool) (origK : SessionState)
    (keyName : String) (s : SessionState) (out : AddOrUpdateOk)
    (hok : finishAddOrUpdate env m sr isHashed origK keyName s = Except.ok out) :
    out.session.basicAuthPassword =
      (passwordStep env m origK (expiryCorrect env origK s)).basicAuthPassword := by
  rcases finish_ok_session env m sr isHashed origK keyName s out hok with ⟨saved, hd⟩
  exact (doAddOrUpdate_basicAuth env _ _ sr isHashed out.session saved hd).1

/-! ### Lemmas about token revocation and client creation -/

theorem foldl_removeAccess_subset (l : List String) :
    ∀ (store : TokenStore) (p : String × String), p ∈ l.foldl RemoveAccess store → p ∈ store := by
  induction l with
  | nil => intro store p hp; exact hp
  | cons tok t ih =>
    intro store p hp
    have hmem := ih (RemoveAccess store tok) p hp
    unfold RemoveAccess at hmem
    exact List.mem_of_mem_filter hmem

theorem foldl_removeAccess_not_mem (tok : String) :
    ∀ (l : List String), tok ∈ l → ∀ (store : TokenStore) (p : String × String),
      p ∈ l.foldl RemoveAccess store → p.2 ≠ tok := by
  intro l
  induction l with
  | nil => intro h; exact absurd h (List.not_mem_nil tok)
  | cons t0 ts ih =>
    intro hmem store p hp
    rw [List.foldl_cons] at hp
    by_cases h0 : tok = t0
    · have hsub := foldl_removeAccess_subset ts (RemoveAccess store t0) p hp
      unfold RemoveAccess at hsub
      have hcond := List.of_mem_filter hsub
      subst h0
      simpa using hcond
    · rcases List.mem_cons.mp hmem with h | h
      · exact absurd h h0
      · exact ih h (RemoveAccess store t0) p hp

/-- A policy change away from a non-empty policy removes every token of the
client from the store. -/
theorem invalidateTokens_revokes (store : TokenStore) (prevClient updatedClient : OAuthClient)
    (hpol : prevClient.policyID ≠ "") (hdiff : prevClient.policyID ≠ updatedClient.policyID) :
    ∀ t, (updatedClient.clientID, t) ∉ invalidateTokens store prevClient updatedClient := by
  intro t ht
  unfold invalidateTokens at ht
  rw [if_pos (by simp [hpol, hdiff])] at ht
  have hsub := foldl_removeAccess_subset _ _ _ ht
  have htl : t ∈ GetClientTokens store updatedClient.clientID := by
    unfold GetClientTokens
    exact List.mem_map_of_mem Prod.snd (List.mem_filter.mpr ⟨hsub, by simp⟩)
  exact foldl_removeAccess_not_mem t _ htl store (updatedClient.clientID, t) ht rfl

/-- When the policy does not change, no token is removed. -/
theorem invalidateTokens_same (store : TokenStore) (prevClient updatedClient : OAuthClient)
    (hsame : updatedClient.policyID = prevClient.policyID) :
    invalidateTokens store prevClient updatedClient = store := by
  unfold invalidateTokens
  rw [if_neg (by simp [hsame])]

/-- Value of the `createOauthClient` fan-out loop when every API of the
policy resolves: the client is stored under exactly the qualifying APIs and
the `oauth2` flag records whether any qualified. -/
theorem createFold_ok (env : GwEnv) :
    ∀ (l : List String) (b : Bool) (stored : List String),
      (∀ a ∈ l, (env.getApiSpec a).isSome) →
      l.foldl (createClientStep env) (Except.ok (b, stored)) =
        Except.ok (b || !(l.filter (isOauthApi env)).isEmpty,
          stored ++ l.filter (isOauthApi env)) := by
  intro l
  induction l with
  | nil => intro b stored _; simp
  | cons a t ih =>
    intro b stored hall
    rw [List.foldl_cons]
    have ha : (env.getApiSpec a).isSome := hall a (List.mem_cons_self a t)
    cases hspec : env.getApiSpec a with
    | none => rw [hspec] at ha; simp at ha
    | some sp =>
      have hstep : createClientStep env (Except.ok (b, stored)) a =
          if (sp.useOauth2 || sp.enableJWT) = true then Except.ok (true, stored ++ [a])
          else Except.ok (b, stored) := by
        unfold createClientStep
        rw [hspec]
      by_cases hq : (sp.useOauth2 || sp.enableJWT) = true
      · rw [hstep, if_pos hq, ih true (stored ++ [a])
          (fun x hx => hall x (List.mem_cons_of_mem a hx))]
        have hf : (a :: t).filter (isOauthApi env) = a :: t.filter (isOauthApi env) := by
          simp [List.filter_cons, isOauthApi, hspec, hq]
        rw [hf]
        simp
      · rw [hstep, if_neg hq, ih b stored (fun x hx => hall x (List.mem_cons_of_mem a hx))]
        have hf : (a :: t).filter (isOauthApi env) = t.filter (isOauthApi env) := by
          simp [List.filter_cons, isOauthApi, hspec, hq]
        rw [hf]

/-! ### Claims -/

/-- C1: For every OAuth client update or rotation: if the client's stored
PolicyID was non-empty and the operation changes PolicyID to a different
value, then every access token previously issued to that client is
enumerated and individually revoked before the operation completes;
conversely, a rotation alone (which preserves PolicyID) revokes no tokens. -/
theorem C1_policy_change_invalidates (env : GwEnv) (clientStore : String → Option OAuthClient)
    (store : TokenStore) (keyName apiID newSecret : String) (upd : NewClientRequest)
    (client : OAuthClient)
    (hc : clientStore (oauthClientStorageID keyName) = some client) :
    (∀ updated store', client.policyID ≠ "" → upd.policyID ≠ client.policyID →
      updateOauthClient env clientStore store keyName apiID upd = Except.ok (updated, store') →
      ∀ t, (client.clientID, t) ∉ store') ∧
    (∀ updated store',
      rotateOauthClient env clientStore store keyName apiID newSecret =
        Except.ok (updated, store') →
      store' = store) := by
  constructor
  · intro updated store' hpol hdiff h
    unfold updateOauthClient at h
    cases hspec : env.getApiSpec apiID with
    | none => rw [hspec] at h; exact absurd h (by simp)
    | some sp =>
      rw [hspec] at h
      cases hpc : updatePolicyCheck env apiID upd with
      | some e => rw [hpc] at h; exact absurd h (by simp)
      | none =>
        rw [hpc, hc] at h
        cases h
        exact invalidateTokens_revokes store client _ hpol (by intro he; exact hdiff he.symm)
  · intro updated store' h
    unfold rotateOauthClient at h
    cases hspec : env.getApiSpec apiID with
    | none => rw [hspec] at h; exact absurd h (by simp)
    | some sp =>
      rw [hspec, hc] at h
      cases h
      exact invalidateTokens_same store client _ rfl

theorem C1_policy_change_invalidates_witness :
    clientStoreOne (oauthClientStorageID "c1") = some clientP1 ∧
    ((∀ updated store', clientP1.policyID ≠ "" → updToP2.policyID ≠ clientP1.policyID →
      updateOauthClient envPol clientStoreOne tokensC1 "c1" "api1" updToP2 =
        Except.ok (updated, store') →
      ∀ t, (clientP1.clientID, t) ∉ store') ∧
    (∀ updated store',
      rotateOauthClient envPol clientStoreOne tokensC1 "c1" "api1" "s2" =
        Except.ok (updated, store') →
      store' = tokensC1)) :=
  ⟨by decide,
   C1_policy_change_invalidates envPol clientStoreOne tokensC1 "c1" "api1" "s2" updToP2
     clientP1 (by decide)⟩

/-- C3: For every session processed on key create or update, after the
access-rights normalization step (`resetAPILimits`) every per-API
AccessDefinition whose Limit equals the exact zero value is stored with the
zero-value Limit (treated identically to an absent override), so no access
right retains a half-populated stale limit struct. -/
theorem C3_zero_limits_stay_zero (ar : List (String × AccessDefinition)) (apiID : String)
    (a : AccessDefinition) (hmem : lookupL ar apiID = some a)
    (hz : a.limit = APILimit.empty) :
    lookupL (resetAPILimits ar) apiID = some a ∧ a.limit = APILimit.empty := by
  rw [resetAPILimits_id]
  exact ⟨hmem, hz⟩

theorem C3_zero_limits_stay_zero_witness :
    lookupL [("api1", adZero)] "api1" = some adZero ∧ adZero.limit = APILimit.empty ∧
    (lookupL (resetAPILimits [("api1", adZero)]) "api1" = some adZero ∧
      adZero.limit = APILimit.empty) :=
  ⟨by decide, by decide,
   C3_zero_limits_stay_zero [("api1", adZero)] "api1" adZero (by decide) (by decide)⟩

/-- C6: For every OAuth client registration without an explicit api_id: the
client is stored under every API in the referenced policy's access rights
that has OAuth2 or JWT enabled, and if no such API exists the call fails
with HTTP 400 and message "API is not OAuth2" without registering the client
anywhere. -/
theorem C6_policy_fanout (env : GwEnv) (req : NewClientRequest) (genID genSecret : String)
    (pol : Policy)
    (hapi : req.apiID = "")
    (hpol : env.policiesByID req.policyID = some pol)
    (hall : ∀ a ∈ pol.accessRights.map Prod.fst, (env.getApiSpec a).isSome) :
    ((pol.accessRights.map Prod.fst).filter (isOauthApi env) = [] →
      createOauthClient env req genID genSecret = Except.error (("API is not OAuth2", 400), [])) ∧
    ((pol.accessRights.map Prod.fst).filter (isOauthApi env) ≠ [] →
      ∃ c, createOauthClient env req genID genSecret =
        Except.ok (c, (pol.accessRights.map Prod.fst).filter (isOauthApi env))) := by
  have hmain : createOauthClient env req genID genSecret =
      (if ((pol.accessRights.map Prod.fst).filter (isOauthApi env)).isEmpty then
        Except.error (("API is not OAuth2", 400), [])
      else Except.ok
        ({ clientID := if req.clientID == "" then genID else req.clientID
           clientSecret := if req.clientSecret == "" then genSecret else req.clientSecret
           clientRedirectURI := req.clientRedirectURI
           policyID := req.policyID
           metaData := req.metaData
           description := req.description },
         (pol.accessRights.map Prod.fst).filter (isOauthApi env))) := by
    unfold createOauthClient
    rw [hapi]
    simp only [bne_self_eq_false, Bool.false_eq_true, if_false]
    rw [hpol]
    simp only []
    rw [createFold_ok env _ false [] hall]
    simp only [Bool.false_or, List.nil_append]
    by_cases he : ((pol.accessRights.map Prod.fst).filter (isOauthApi env)).isEmpty = true
    · have hf : (pol.accessRights.map Prod.fst).filter (isOauthApi env) = [] :=
        List.isEmpty_iff.mp he
      rw [hf]
      rfl
    · have hne : ((pol.accessRights.map Prod.fst).filter (isOauthApi env)).isEmpty = false := by
        simpa using he
      rw [hne]
      rfl
  constructor
  · intro hnil
    rw [hmain, if_pos (by rw [hnil]; rfl)]
  · intro hnonnil
    rw [hmain, if_neg (by simpa [List.isEmpty_iff] using hnonnil)]
    exact ⟨_, rfl⟩

theorem C6_policy_fanout_witness :
    reqNoApiPlain.apiID = "" ∧
    envPol.policiesByID reqNoApiPlain.policyID = some polApi2 ∧
    (∀ a ∈ polApi2.accessRights.map Prod.fst, (envPol.getApiSpec a).isSome) ∧
    (polApi2.accessRights.map Prod.fst).filter (isOauthApi envPol) = [] ∧
    createOauthClient envPol reqNoApiPlain "gid" "gsec" =
      Except.error (("API is not OAuth2", 400), []) :=
  ⟨by decide, by decide, by decide, by decide,
   (C6_policy_fanout envPol reqNoApiPlain "gid" "gsec" polApi2 (by decide) (by decide)
     (by decide)).1 (by decide)⟩

/-- C8: For every key update (PUT) naming a key for which no session exists,
the operation fails with HTTP 404 and body {status:"error", message:"Key is
not found"}, and no session is created or modified (the error return
precedes every save). -/
theorem C8_put_unknown_key_404 (env : GwEnv) (keyName0 : String)
    (suppressReset isHashed : Bool) (incoming : SessionState)
    (hlk : env.sessionDetail (ApplyPolicies env incoming).orgID keyName0 isHashed = none) :
    handleAddOrUpdate env keyName0 Method.put suppressReset isHashed incoming =
      Except.error ("Key is not found", 404) := by
  unfold handleAddOrUpdate
  simp only []
  rw [hlk]

theorem C8_put_unknown_key_404_witness :
    envBase.sessionDetail (ApplyPolicies envBase emptySession).orgID "bad-key" false = none ∧
    handleAddOrUpdate envBase "bad-key" Method.put false false emptySession =
      Except.error ("Key is not found", 404) :=
  ⟨rfl, C8_put_unknown_key_404 envBase "bad-key" false false emptySession rfl⟩

/-- C10: For every key-detail request that asks for lookup by hash while key
hashing is disabled in the gateway configuration, the request is rejected
with HTTP 400 before any session lookup is attempted, so no session data is
returned (the result is this error for every session store and every quota
store). -/
theorem C10_hash_lookup_rejected (env : GwEnv) (quotaStore : String → Option Int)
    (sessionKey apiID orgID : String) (h : env.hashKeys = false) :
    handleGetDetail env quotaStore sessionKey apiID orgID true =
      Except.error ("Key requested by hash but key hashing is not enabled", 400) := by
  unfold handleGetDetail
  rw [h]
  rfl

theorem C10_hash_lookup_rejected_witness :
    envBase.hashKeys = false ∧
    handleGetDetail envBase (fun _ => none) "k" "api1" "org1" true =
      Except.error ("Key requested by hash but key hashing is not enabled", 400) :=
  ⟨rfl, C10_hash_lookup_rejected envBase (fun _ => none) "k" "api1" "org1" rfl⟩

/-- C7: For every key create or update whose session declares no
AccessRights: the key is saved against every registered API when master keys
are administratively allowed (the saved-under list is exactly the registry),
and the operation is rejected with an error, nothing saved, when master keys
are disallowed. -/
theorem C7_master_keys (env : GwEnv) (keyName : String) (s : SessionState)
    (dontReset isHashed : Bool) (hempty : s.accessRights = []) :
    (env.allowMasterKeys = true →
      ∃ final, doAddOrUpdate env keyName s dontReset isHashed =
        Except.ok (final, env.allSpecs.map APISpec.apiID)) ∧
    (env.allowMasterKeys = false →
      doAddOrUpdate env keyName s dontReset isHashed =
        Except.error "Master keys not allowed") := by
  constructor
  · intro hmk
    unfold doAddOrUpdate
    by_cases hr : (!dontReset) = true
    · rw [if_pos hr,
        if_neg (show ¬(({ s with lastUpdated := toString env.now } : SessionState).accessRights.length > 0) by
          simp [hempty]),
        hmk, if_neg (by simp)]
      refine ⟨(env.allSpecs.foldl (masterKeyStep env keyName dontReset isHashed)
        ({ s with lastUpdated := toString env.now }, [])).1, ?_⟩
      have hsv := masterFold_saved env keyName dontReset isHashed env.allSpecs
        ({ s with lastUpdated := toString env.now }, [])
      simp only [List.nil_append] at hsv
      rw [← hsv]
    · rw [if_neg hr,
        if_neg (show ¬(s.accessRights.length > 0) by simp [hempty]),
        hmk, if_neg (by simp)]
      refine ⟨(env.allSpecs.foldl (masterKeyStep env keyName dontReset isHashed) (s, [])).1, ?_⟩
      have hsv := masterFold_saved env keyName dontReset isHashed env.allSpecs (s, [])
      simp only [List.nil_append] at hsv
      rw [← hsv]
  · intro hmk
    unfold doAddOrUpdate
    by_cases hr : (!dontReset) = true
    · rw [if_pos hr,
        if_neg (show ¬(({ s with lastUpdated := toString env.now } : SessionState).accessRights.length > 0) by
          simp [hempty]),
        hmk, if_pos (by simp)]
    · rw [if_neg hr,
        if_neg (show ¬(s.accessRights.length > 0) by simp [hempty]),
        hmk, if_pos (by simp)]

theorem C7_master_keys_witness :
    ({ emptySession with orgID := "org1" } : SessionState).accessRights = [] ∧
    ((envBase.allowMasterKeys = true →
      ∃ final, doAddOrUpdate envBase "k" { emptySession with orgID := "org1" } true false =
        Except.ok (final, envBase.allSpecs.map APISpec.apiID)) ∧
    (envBase.allowMasterKeys = false →
      doAddOrUpdate envBase "k" { emptySession with orgID := "org1" } true false =
        Except.error "Master keys not allowed")) :=
  ⟨by decide,
   C7_master_keys envBase "k" { emptySession with orgID := "org1" } true false (by decide)⟩

/-- C2 (counterexample): in a suppress-reset update, a prior access right
with a non-empty limit (QuotaRenews = 100) whose incoming counterpart has an
empty limit is not carried forward: the update succeeds and the stored
access right keeps QuotaRenews = 0, not the prior 100 the claim requires. -/
theorem C2_empty_new_limit_not_carried :
    lookupL origSess.accessRights "api1" = some adRenews100 ∧
    adRenews100.limit.IsEmpty = false ∧
    adRenews100.limit.quotaRenews = 100 ∧
    (handleAddOrUpdate envPut "key1" Method.put true false inEmptyLimit).toOption.map
      (fun out => (lookupL out.session.accessRights "api1").map
        (fun ad => ad.limit.quotaRenews)) = some (some 0) ∧
    (0 : Int) ≠ 100 := by
  refine ⟨by decide, by decide, by decide, by rfl, by decide⟩

/-- C2 (amended): for every key update (PUT) with suppress_reset=1 on a
session referencing no policies, where a prior session exists under the key
name: the stored session's QuotaRenews and LastUpdated equal the prior
session's values, and for every per-API access right whose limit is
non-empty in the prior session and which the incoming session also carries
with a non-empty limit, that access right's QuotaRenews in the result equals
its value in the prior session. -/
theorem C2_suppress_reset_carry (env : GwEnv) (keyName0 : String) (isHashed : Bool)
    (incoming orig : SessionState)
    (hnp : incoming.policyIDs = [])
    (hnd : (orig.accessRights.map Prod.fst).Nodup)
    (hlk : env.sessionDetail incoming.orgID keyName0 isHashed = some orig)
    (out : AddOrUpdateOk)
    (hok : handleAddOrUpdate env keyName0 Method.put true isHashed incoming = Except.ok out) :
    out.session.quotaRenews = orig.quotaRenews ∧
    out.session.lastUpdated = orig.lastUpdated ∧
    (∀ apiID a na, lookupL orig.accessRights apiID = some a → a.limit.IsEmpty = false →
      lookupL incoming.accessRights apiID = some na → na.limit.IsEmpty = false →
      lookupL out.session.accessRights apiID =
        some { na with limit := { na.limit with quotaRenews := a.limit.quotaRenews } }) := by
  have hA : ApplyPolicies env incoming = incoming := ApplyPolicies_nil env incoming hnp
  have hlk2 : env.sessionDetail (ApplyPolicies env incoming).orgID keyName0 isHashed =
      some orig := by
    rw [hA]
    exact hlk
  have hfin := put_reaches_finish env keyName0 true isHashed incoming orig out hlk2 hok
  rw [hA] at hfin
  have hfin2 : finishAddOrUpdate env Method.put true isHashed orig orig.keyID
      (suppressResetCarry orig { incoming with dateCreated := orig.dateCreated }) =
      Except.ok out := hfin
  have hnp2 : (suppressResetCarry orig
      { incoming with dateCreated := orig.dateCreated }).policyIDs = [] := by
    rw [(suppressResetCarry_fields orig _).2.2.2.2.2.1]
    exact hnp
  have hsess := finish_session_suppress env isHashed orig orig.keyID _ hnp2 out hfin2
  refine ⟨?_, ?_, ?_⟩
  · rw [hsess, (passwordStep_fields env Method.put orig _).1,
      (expiryCorrect_fields env orig _).1, (suppressResetCarry_fields orig _).1]
  · rw [hsess, (passwordStep_fields env Method.put orig _).2.1,
      (expiryCorrect_fields env orig _).2.1, (suppressResetCarry_fields orig _).2.1]
  · intro apiID a na hmo hne hmn hnn
    rw [hsess, (passwordStep_fields env Method.put orig _).2.2.1,
      (expiryCorrect_fields env orig _).2.2.1]
    unfold suppressResetCarry
    exact carryFold_lookup_hit a apiID hne orig.accessRights hnd hmo _ na hmn hnn

theorem C2_suppress_reset_carry_witness :
    inFreshLimit.policyIDs = [] ∧
    (origSess.accessRights.map Prod.fst).Nodup ∧
    envPut.sessionDetail inFreshLimit.orgID "key1" false = some origSess ∧
    handleAddOrUpdate envPut "key1" Method.put true false inFreshLimit = Except.ok outFresh ∧
    outFresh.session.quotaRenews = origSess.quotaRenews ∧
    outFresh.session.lastUpdated = origSess.lastUpdated ∧
    lookupL outFresh.session.accessRights "api1" =
      some { adFresh with limit :=
        { adFresh.limit with quotaRenews := adRenews100.limit.quotaRenews } } := by
  have hok : handleAddOrUpdate envPut "key1" Method.put true false inFreshLimit =
      Except.ok outFresh := by rfl
  have hthm := C2_suppress_reset_carry envPut "key1" false inFreshLimit origSess
    (by decide) (by decide) (by decide) outFresh hok
  exact ⟨by decide, by decide, by decide, hok, hthm.1, hthm.2.1,
    hthm.2.2 "api1" adRenews100 adFresh (by decide) (by decide) (by decide) (by decide)⟩

/-- C5 (counterexample): an incoming `Expires = 1` is non-zero and in the
past, yet the update succeeds and stores `Expires = 1` instead of the
previous session's 99: the code corrects only values greater than 1. -/
theorem C5_expires_one_not_corrected :
    envPut.now > (1 : Int) ∧ (1 : Int) ≠ 0 ∧
    envPut.sessionDetail inExpires1.orgID "key1" false = some origSess ∧
    origSess.expires = 99 ∧
    (handleAddOrUpdate envPut "key1" Method.put true false inExpires1).toOption.map
      (fun out => out.session.expires) = some 1 ∧
    (1 : Int) ≠ 99 := by
  refine ⟨by decide, by decide, by decide, by decide, by rfl, by decide⟩

/-- C5 (amended): for every key create or update whose incoming session
references no policies and carries an Expires value that is greater than 1
(rather than merely non-zero) and lies in the past, the stored session's
Expires is silently set to the previous session's Expires (the zero value
on create, where no previous session exists). -/
theorem C5_expiry_correction (env : GwEnv) (keyName0 : String) (sr isHashed : Bool)
    (incoming orig : SessionState)
    (hnp : incoming.policyIDs = [])
    (hpast : env.now > incoming.expires) (hgt : incoming.expires > 1) :
    (∀ out, env.sessionDetail incoming.orgID keyName0 isHashed = some orig →
      handleAddOrUpdate env keyName0 Method.put sr isHashed incoming = Except.ok out →
      out.session.expires = orig.expires) ∧
    (∀ out, handleAddOrUpdate env keyName0 Method.post sr isHashed incoming = Except.ok out →
      out.session.expires = emptySession.expires) := by
  have hA : ApplyPolicies env incoming = incoming := ApplyPolicies_nil env incoming hnp
  constructor
  · intro out hlk hok
    have hlk2 : env.sessionDetail (ApplyPolicies env incoming).orgID keyName0 isHashed =
        some orig := by
      rw [hA]
      exact hlk
    have hfin := put_reaches_finish env keyName0 sr isHashed incoming orig out hlk2 hok
    rw [hA] at hfin
    by_cases hsr : sr = true
    · subst hsr
      have hfin2 : finishAddOrUpdate env Method.put true isHashed orig orig.keyID
          (suppressResetCarry orig { incoming with dateCreated := orig.dateCreated }) =
          Except.ok out := hfin
      have hnp2 : (suppressResetCarry orig
          { incoming with dateCreated := orig.dateCreated }).policyIDs = [] := by
        rw [(suppressResetCarry_fields orig _).2.2.2.2.2.1]
        exact hnp
      have hexp := finish_expires env Method.put true isHashed orig orig.keyID _ hnp2 out hfin2
      rw [hexp]
      have hce : (suppressResetCarry orig
          { incoming with dateCreated := orig.dateCreated }).expires = incoming.expires :=
        (suppressResetCarry_fields orig _).2.2.1
      unfold expiryCorrect
      rw [if_pos (by rw [hce]; simp [hpast, hgt])]
    · have hsr' : sr = false := by simpa using hsr
      subst hsr'
      have hfin2 : finishAddOrUpdate env Method.put false isHashed orig orig.keyID
          ({ incoming with dateCreated := orig.dateCreated }) = Except.ok out := hfin
      have hnp2 : ({ incoming with dateCreated := orig.dateCreated } :
          SessionState).policyIDs = [] := hnp
      have hexp := finish_expires env Method.put false isHashed orig orig.keyID _ hnp2 out hfin2
      rw [hexp]
      unfold expiryCorrect
      rw [if_pos (by simp [hpast, hgt])]
  · intro out hok
    have hfin := post_reaches_finish env keyName0 sr isHashed incoming out hok
    rw [hA] at hfin
    have hnp2 : ({ incoming with dateCreated := env.now } : SessionState).policyIDs = [] := hnp
    have hexp := finish_expires env Method.post sr isHashed emptySession _ _ hnp2 out hfin
    rw [hexp]
    unfold expiryCorrect
    rw [if_pos (by simp [hpast, hgt])]

theorem C5_expiry_correction_witness :
    inExpires5.policyIDs = [] ∧
    envPut.now > inExpires5.expires ∧ inExpires5.expires > 1 ∧
    envPut.sessionDetail inExpires5.orgID "key1" false = some origSess ∧
    handleAddOrUpdate envPut "key1" Method.put true false inExpires5 = Except.ok outExpires5 ∧
    outExpires5.session.expires = origSess.expires := by
  have hok : handleAddOrUpdate envPut "key1" Method.put true false inExpires5 =
      Except.ok outExpires5 := by rfl
  have hthm := (C5_expiry_correction envPut "key1" true false inExpires5 origSess
    (by decide) (by decide) (by decide)).1 outExpires5 (by decide) hok
  exact ⟨by decide, by decide, by decide, by decide, hok, hthm⟩

/-- C9: For every key create (POST) with a non-empty basic-auth password,
the stored password is the bcrypt hash of the incoming plaintext; for every
key update (PUT) with a non-empty password, the password is re-hashed
exactly when the incoming plaintext differs from the stored
(already-hashed) value, and is left as-is when they are equal. -/
theorem C9_password_hashing (env : GwEnv) (keyName0 : String) (sr isHashed : Bool)
    (incoming orig : SessionState)
    (hpw : incoming.basicAuthPassword ≠ "") :
    (∀ out, handleAddOrUpdate env keyName0 Method.post sr isHashed incoming = Except.ok out →
      out.session.basicAuthPassword = env.bcryptHash incoming.basicAuthPassword) ∧
    (∀ out, env.sessionDetail (ApplyPolicies env incoming).orgID keyName0 isHashed = some orig →
      handleAddOrUpdate env keyName0 Method.put sr isHashed incoming = Except.ok out →
      (orig.basicAuthPassword ≠ incoming.basicAuthPassword →
        out.session.basicAuthPassword = env.bcryptHash incoming.basicAuthPassword) ∧
      (orig.basicAuthPassword = incoming.basicAuthPassword →
        out.session.basicAuthPassword = incoming.basicAuthPassword)) := by
  constructor
  · intro out hok
    have hfin := post_reaches_finish env keyName0 sr isHashed incoming out hok
    have hba := finish_basicAuth env Method.post sr isHashed emptySession _ _ out hfin
    rw [hba]
    have hpw2 : (expiryCorrect env emptySession
        { ApplyPolicies env incoming with dateCreated := env.now }).basicAuthPassword =
        incoming.basicAuthPassword := by
      rw [(expiryCorrect_fields env emptySession _).2.2.2.1]
      exact (ApplyPolicies_basicAuth env incoming).1
    unfold passwordStep setSessionPassword
    rw [hpw2, if_pos (by simpa using hpw)]
  · intro out hlk hok
    have hfin := put_reaches_finish env keyName0 sr isHashed incoming orig out hlk hok
    have hba := finish_basicAuth env Method.put sr isHashed orig orig.keyID _ out hfin
    have hpw2 : (expiryCorrect env orig (if sr = true then
        suppressResetCarry orig { ApplyPolicies env incoming with dateCreated := orig.dateCreated }
        else { ApplyPolicies env incoming with dateCreated := orig.dateCreated }
        )).basicAuthPassword = incoming.basicAuthPassword := by
      rw [(expiryCorrect_fields env orig _).2.2.2.1]
      by_cases hsr : sr = true
      · rw [if_pos hsr, (suppressResetCarry_fields orig _).2.2.2.1]
        exact (ApplyPolicies_basicAuth env incoming).1
      · rw [if_neg hsr]
        exact (ApplyPolicies_basicAuth env incoming).1
    rw [hba]
    unfold passwordStep setSessionPassword
    have hcond2 : (incoming.basicAuthPassword != "") = true := by simpa using hpw
    rw [hpw2, if_pos hcond2]
    constructor
    · intro hne
      have hcond3 : (orig.basicAuthPassword != incoming.basicAuthPassword) = true := by
        simpa using hne
      rw [if_pos hcond3]
    · intro heq
      have hcond3 : ¬((orig.basicAuthPassword != incoming.basicAuthPassword) = true) := by
        simp [heq]
      rw [if_neg hcond3]
      exact hpw2

theorem C9_password_hashing_witness :
    inPw.basicAuthPassword ≠ "" ∧
    handleAddOrUpdate envBase "k9" Method.post false false inPw = Except.ok outPost9 ∧
    outPost9.session.basicAuthPassword = envBase.bcryptHash inPw.basicAuthPassword := by
  have hok : handleAddOrUpdate envBase "k9" Method.post false false inPw =
      Except.ok outPost9 := by rfl
  have hthm := (C9_password_hashing envBase "k9" false false inPw emptySession
    (by decide)).1 outPost9 hok
  exact ⟨by decide, hok, hthm⟩

/-! ### Lemmas about `handleGetDetail` quota population -/

theorem clamp_eq_max (x : Int) : (if x < 0 then (0 : Int) else x) = max 0 x := by
  by_cases h : x < 0
  · rw [if_pos h]
    exact (max_eq_left (le_of_lt h)).symm
  · rw [if_neg h]
    exact (max_eq_right (not_lt.mp h)).symm

theorem lookupL_map_value {α β : Type} (m : List (String × α)) (g : α → β) (k : String)
    (v : α) (h : lookupL m k = some v) :
    lookupL (m.map (fun p => (p.1, g p.2))) k = some (g v) := by
  rw [lookupL_map m (fun p => g p.2) k]
  unfold lookupL at h
  rcases Option.map_eq_some'.mp h with ⟨p, hp, hpv⟩
  rw [hp]
  simp only [Option.map_some']
  rw [hpv]

theorem detailSessionQuota_unlimited (env : GwEnv) (quotaStore : String → Option Int)
    (sessionKey : String) (byHash : Bool) (session : SessionState)
    (hm : session.quotaMax = -1) :
    detailSessionQuota env quotaStore sessionKey byHash session = session := by
  unfold detailSessionQuota
  rw [if_neg (by simp [hm])]

theorem detailSessionQuota_some (env : GwEnv) (quotaStore : String → Option Int)
    (sessionKey : String) (byHash : Bool) (session : SessionState) (q : Int)
    (hm : session.quotaMax ≠ -1)
    (hq : quotaStore ("quota-" ++ (if byHash then sessionKey else env.hashKeyFn sessionKey)) =
      some q) :
    detailSessionQuota env quotaStore sessionKey byHash session =
      { session with quotaRemaining := max 0 (session.quotaMax - q) } := by
  unfold detailSessionQuota
  rw [if_pos (by simpa using hm)]
  simp only []
  rw [hq]
  simp only []
  by_cases hlt : session.quotaMax - q < 0
  · rw [if_pos hlt, max_eq_left (le_of_lt hlt)]
  · rw [if_neg hlt, max_eq_right (not_lt.mp hlt)]

theorem detailSessionQuota_none (env : GwEnv) (quotaStore : String → Option Int)
    (sessionKey : String) (byHash : Bool) (session : SessionState)
    (hm : session.quotaMax ≠ -1)
    (hq : quotaStore ("quota-" ++ (if byHash then sessionKey else env.hashKeyFn sessionKey)) =
      none) :
    detailSessionQuota env quotaStore sessionKey byHash session = session := by
  unfold detailSessionQuota
  rw [if_pos (by simpa using hm)]
  simp only []
  rw [hq]

theorem detailSessionQuota_shape (env : GwEnv) (quotaStore : String → Option Int)
    (sessionKey : String) (byHash : Bool) (session : SessionState) :
    ∃ r, detailSessionQuota env quotaStore sessionKey byHash session =
      { session with quotaRemaining := r } := by
  unfold detailSessionQuota
  by_cases hm : (session.quotaMax != -1) = true
  · rw [if_pos hm]
    simp only []
    cases hq : quotaStore ("quota-" ++ (if byHash then sessionKey else env.hashKeyFn sessionKey))
      with
    | some u =>
      simp only []
      by_cases hlt : session.quotaMax - u < 0
      · exact ⟨0, by rw [if_pos hlt]⟩
      · exact ⟨session.quotaMax - u, by rw [if_neg hlt]⟩
    | none => exact ⟨session.quotaRemaining, rfl⟩
  · rw [if_neg hm]
    exact ⟨session.quotaRemaining, rfl⟩

theorem detailKeyID_fields (env : GwEnv) (sessionKey : String) (session : SessionState) :
    (detailKeyID env sessionKey session).quotaRemaining = session.quotaRemaining ∧
    (detailKeyID env sessionKey session).accessRights = session.accessRights := by
  unfold detailKeyID
  split
  · exact ⟨rfl, rfl⟩
  · exact ⟨rfl, rfl⟩

theorem detailLimitQuota_skip (env : GwEnv) (quotaStore : String → Option Int)
    (sessionKey : String) (byHash : Bool) (access : AccessDefinition)
    (h : (access.limit.IsEmpty || access.limit.quotaMax == -1 ||
      access.limit.quotaMax == 0) = true) :
    detailLimitQuota env quotaStore sessionKey byHash access = access := by
  unfold detailLimitQuota
  rw [if_pos h]

theorem detailLimitQuota_some (env : GwEnv) (quotaStore : String → Option Int)
    (sessionKey : String) (byHash : Bool) (access : AccessDefinition) (q : Int)
    (h : (access.limit.IsEmpty || access.limit.quotaMax == -1 ||
      access.limit.quotaMax == 0) = false)
    (hq : quotaStore ("quota-" ++
      (if access.allowanceScope != "" then access.allowanceScope ++ "-" else "") ++
      (if byHash then sessionKey else env.hashKeyFn sessionKey)) = some q) :
    detailLimitQuota env quotaStore sessionKey byHash access =
      { access with limit := { access.limit with
        quotaRemaining := max 0 (access.limit.quotaMax - q) } } := by
  unfold detailLimitQuota
  rw [if_neg (by simp [h])]
  simp only []
  rw [hq]
  simp only []
  rw [clamp_eq_max]

theorem detailLimitQuota_none (env : GwEnv) (quotaStore : String → Option Int)
    (sessionKey : String) (byHash : Bool) (access : AccessDefinition)
    (h : (access.limit.IsEmpty || access.limit.quotaMax == -1 ||
      access.limit.quotaMax == 0) = false)
    (hq : quotaStore ("quota-" ++
      (if access.allowanceScope != "" then access.allowanceScope ++ "-" else "") ++
      (if byHash then sessionKey else env.hashKeyFn sessionKey)) = none) :
    detailLimitQuota env quotaStore sessionKey byHash access =
      { access with limit := { access.limit with
        quotaRemaining := access.limit.quotaMax } } := by
  unfold detailLimitQuota
  rw [if_neg (by simp [h])]
  simp only []
  rw [hq]

/-- C4 (counterexample): with a global quota of 10, a stored QuotaRemaining
of 3 and no usage counter present in the store, the detail endpoint reports
3 — the stored value — not the full limit 10 the claim requires for an
absent counter at the session level. -/
theorem C4_absent_counter_keeps_stored :
    sessQuota.quotaMax = 10 ∧ sessQuota.quotaMax ≠ -1 ∧
    (fun _ => (none : Option Int)) ("quota-" ++ envQuota.hashKeyFn sessQuota.keyID) = none ∧
    (handleGetDetail envQuota (fun _ => none) "kq" "apiX" "org1" false).toOption.map
      (fun s => s.quotaRemaining) = some 3 ∧
    (3 : Int) ≠ 10 := by
  refine ⟨by decide, by decide, rfl, by rfl, by decide⟩

/-- C4 (amended): for every key-detail fetch of a session referencing no
policies: at the session level, a quota limit of -1 skips the counter,
a present counter reports max(0, quotaMax - counter), and an absent counter
leaves the stored QuotaRemaining unchanged (rather than reporting the full
limit); at the per-API level, empty, unlimited (-1) and zero limits are
skipped, a present counter reports max(0, limit max - counter), and an
absent counter reports the full limit rather than an error. -/
theorem C4_quota_reporting (env : GwEnv) (quotaStore : String → Option Int)
    (sessionKey0 apiID orgID0 : String) (byHash : Bool) (sess : SessionState)
    (hnp : sess.policyIDs = [])
    (hlk : env.sessionDetail
      (match env.getApiSpec apiID with
        | some spec => spec.orgID
        | none => orgID0) sessionKey0 byHash = some sess)
    (out : SessionState)
    (hok : handleGetDetail env quotaStore sessionKey0 apiID orgID0 byHash = Except.ok out) :
    (sess.quotaMax = -1 → out.quotaRemaining = sess.quotaRemaining) ∧
    (∀ q, sess.quotaMax ≠ -1 →
      quotaStore ("quota-" ++ (if byHash then sess.keyID else env.hashKeyFn sess.keyID)) =
        some q →
      out.quotaRemaining = max 0 (sess.quotaMax - q)) ∧
    (sess.quotaMax ≠ -1 →
      quotaStore ("quota-" ++ (if byHash then sess.keyID else env.hashKeyFn sess.keyID)) =
        none →
      out.quotaRemaining = sess.quotaRemaining) ∧
    (∀ id access, lookupL sess.accessRights id = some access →
      ((access.limit.IsEmpty || access.limit.quotaMax == -1 ||
          access.limit.quotaMax == 0) = true →
        lookupL out.accessRights id = some access) ∧
      ((access.limit.IsEmpty || access.limit.quotaMax == -1 ||
          access.limit.quotaMax == 0) = false →
        (∀ q, quotaStore ("quota-" ++
            (if access.allowanceScope != "" then access.allowanceScope ++ "-" else "") ++
            (if byHash then sess.keyID else env.hashKeyFn sess.keyID)) = some q →
          lookupL out.accessRights id = some { access with limit :=
            { access.limit with quotaRemaining := max 0 (access.limit.quotaMax - q) } }) ∧
        (quotaStore ("quota-" ++
            (if access.allowanceScope != "" then access.allowanceScope ++ "-" else "") ++
            (if byHash then sess.keyID else env.hashKeyFn sess.keyID)) = none →
          lookupL out.accessRights id = some { access with limit :=
            { access.limit with quotaRemaining := access.limit.quotaMax } }))) := by
  unfold handleGetDetail at hok
  by_cases hguard : (byHash && !env.hashKeys) = true
  · rw [if_pos hguard] at hok
    exact absurd hok (by simp)
  · rw [if_neg hguard] at hok
    simp only [] at hok
    rw [hlk] at hok
    simp only [] at hok
    rw [ApplyPolicies_nil env sess hnp] at hok
    cases hok
    refine ⟨?_, ?_, ?_, ?_⟩
    · intro hm
      rw [(detailKeyID_fields env sess.keyID _).1,
        detailSessionQuota_unlimited env quotaStore sess.keyID byHash sess hm]
    · intro q hm hq
      rw [(detailKeyID_fields env sess.keyID _).1,
        detailSessionQuota_some env quotaStore sess.keyID byHash sess q hm hq]
    · intro hm hq
      rw [(detailKeyID_fields env sess.keyID _).1,
        detailSessionQuota_none env quotaStore sess.keyID byHash sess hm hq]
    · intro id access hmem
      rcases detailSessionQuota_shape env quotaStore sess.keyID byHash sess with ⟨r, hr⟩
      rw [(detailKeyID_fields env sess.keyID _).2, hr]
      have hl := lookupL_map_value sess.accessRights
        (detailLimitQuota env quotaStore sess.keyID byHash) id access hmem
      refine ⟨?_, ?_⟩
      · intro hskip
        rw [hl, detailLimitQuota_skip env quotaStore sess.keyID byHash access hskip]
      · intro hns
        refine ⟨?_, ?_⟩
        · intro q hq
          rw [hl, detailLimitQuota_some env quotaStore sess.keyID byHash access q hns hq]
        · intro hq
          rw [hl, detailLimitQuota_none env quotaStore sess.keyID byHash access hns hq]

theorem C4_quota_reporting_witness :
    sessQuota.policyIDs = [] ∧
    envQuota.sessionDetail
      (match envQuota.getApiSpec "apiX" with
        | some spec => spec.orgID
        | none => "org1") "kq" false = some sessQuota ∧
    handleGetDetail envQuota quotaStore4 "kq" "apiX" "org1" false = Except.ok outQuota ∧
    outQuota.quotaRemaining = max 0 (sessQuota.quotaMax - 4) ∧
    lookupL outQuota.accessRights "api1" = some { adScoped with limit :=
      { adScoped.limit with quotaRemaining := adScoped.limit.quotaMax } } := by
  have hok : handleGetDetail envQuota quotaStore4 "kq" "apiX" "org1" false =
      Except.ok outQuota := by rfl
  have hthm := C4_quota_reporting envQuota quotaStore4 "kq" "apiX" "org1" false sessQuota
    (by decide) (by decide) outQuota hok
  refine ⟨by decide, by decide, hok, ?_, ?_⟩
  · exact hthm.2.1 4 (by decide) (by decide)
  · exact ((hthm.2.2.2 "api1" adScoped (by decide)).2 (by decide)).2 (by decide)

end Gateway
